import Mathlib

/-!
Shallow embedding of the MQI communicator dispatcher (`F_mqi_com`).

The embedding covers the state store (`src/common/db_manager.py`), the
reconciliation phases (`src/services/main_loop_logic.py`, driven by `main.py`),
the remote-executor result classification (`src/services/workflow_submitter.py`),
and the stable-directory scanner callback (`src/services/case_scanner.py`).

Rows of the two SQLite tables become Lean records; each `UPDATE ... WHERE`
statement becomes a keyed map over the row list (`modifyCase` /
`modifyResourcesBy`); every remote call becomes an oracle function passed to
the phase being modelled, so that one phase execution is a pure function of
the store state and the oracle answers.

Several store / submitter methods invoked by the main loop are absent from
the checked-in `db_manager.py` / `workflow_submitter.py` (which hold earlier,
superseded variants): those are modelled from the spec and carry a
`Modelled from the spec:` doc comment.
-/

namespace FMqiCom

/-- A row of the `cases` table (§3 of the spec).  `status_updated_at` is the
spec's timestamp column read by Phase B; the schema in the checked-in
`db_manager.py` does not declare it (see the C5 theorem), so the field is
carried here as an `Option` that the source-derived updaters never write.
Timestamps are abstracted to integers. -/
structure Case where
  case_id : Nat
  case_path : String
  status : String
  progress : Nat
  pueue_group : Option String
  pueue_task_id : Option Nat
  submitted_at : Int
  status_updated_at : Option Int
  completed_at : Option Int
  deriving Repr, DecidableEq

/-- A row of the `gpu_resources` table. -/
structure GpuResource where
  pueue_group : String
  status : String
  assigned_case_id : Option Nat
  deriving Repr, DecidableEq

/-- The persistent store: the two tables of `db_manager.py`. -/
structure DbState where
  cases : List Case
  resources : List GpuResource
  deriving Repr, DecidableEq

/-- `UPDATE cases SET ... WHERE case_id = ?`: apply `f` to every row whose
`case_id` matches. -/
def modifyCase (db : DbState) (case_id : Nat) (f : Case → Case) : DbState :=
  { db with cases := db.cases.map fun c => if c.case_id == case_id then f c else c }

/-- `UPDATE gpu_resources SET ... WHERE <p>`: apply `f` to every row
satisfying `p`. -/
def modifyResourcesBy (db : DbState) (p : GpuResource → Bool)
    (f : GpuResource → GpuResource) : DbState :=
  { db with resources := db.resources.map fun r => if p r then f r else r }

/-- `db_manager.update_case_status`: `SET status = ?, progress = ?`
(the checked-in variant writes nothing else — in particular no
`status_updated_at`). -/
def update_case_status (db : DbState) (case_id : Nat) (status : String)
    (progress : Nat) : DbState :=
  modifyCase db case_id fun c => { c with status := status, progress := progress }

/-- `db_manager.update_case_pueue_task_id`: `SET pueue_task_id = ?`. -/
def update_case_pueue_task_id (db : DbState) (case_id : Nat) (task_id : Nat) :
    DbState :=
  modifyCase db case_id fun c => { c with pueue_task_id := some task_id }

/-- `db_manager.update_case_completion`: `SET status = ?, progress = 100,
completed_at = ?` with the current KST time. -/
def update_case_completion (db : DbState) (case_id : Nat) (status : String)
    (now : Int) : DbState :=
  modifyCase db case_id fun c =>
    { c with status := status, progress := 100, completed_at := some now }

/-- `db_manager.update_gpu_status`: `SET status = ?, assigned_case_id = ?
WHERE pueue_group = ?`.  In the source `case_id` is a keyword parameter whose
Python default is `None`; here it is passed explicitly. -/
def update_gpu_status (db : DbState) (pueue_group : String) (status : String)
    (case_id : Option Nat) : DbState :=
  modifyResourcesBy db (fun r => r.pueue_group == pueue_group)
    (fun r => { r with status := status, assigned_case_id := case_id })

/-- `db_manager.add_gpu_resource`: insert a resource row. -/
def add_gpu_resource (db : DbState) (pueue_group : String) (status : String) :
    DbState :=
  { db with resources := db.resources ++
      [{ pueue_group := pueue_group, status := status, assigned_case_id := none }] }

/-- Modelled from the spec: `release_gpu_resource(case_id)` is called by the
main loop but absent from the checked-in `db_manager.py`.  Per §4.1 it sets
the resource bound to `case_id` (if any) back to
`available, assigned_case_id = NULL`, idempotently. -/
def release_gpu_resource (db : DbState) (case_id : Nat) : DbState :=
  modifyResourcesBy db (fun r => r.assigned_case_id == some case_id)
    (fun r => { r with status := "available", assigned_case_id := none })

/-- Modelled from the spec: `update_case_pueue_group(id, group)` is called by
Phase D but absent from the checked-in `db_manager.py`.  Per §4.1 it sets the
case's `pueue_group` and stamps `status_updated_at`. -/
def update_case_pueue_group (db : DbState) (case_id : Nat) (pueue_group : String)
    (now : Int) : DbState :=
  modifyCase db case_id fun c =>
    { c with pueue_group := some pueue_group, status_updated_at := some now }

/-- Modelled from the spec: the current one-argument `add_case(path)` used by
the scanner ("The pueue_group is no longer assigned here") is absent from the
checked-in `db_manager.py`, whose two-argument variant is superseded.  Per §3
and §4.1 the new row enters `submitted` with no group and no task id; the
case id is the next AUTOINCREMENT value. -/
def add_case (db : DbState) (case_path : String) (now : Int) : Nat × DbState :=
  let cid := (db.cases.map (·.case_id)).foldr max 0 + 1
  (cid, { db with cases := db.cases ++
    [{ case_id := cid, case_path := case_path, status := "submitted",
       progress := 0, pueue_group := none, pueue_task_id := none,
       submitted_at := now, status_updated_at := some now, completed_at := none }] })

/-- `db_manager.get_case_by_id`. -/
def get_case_by_id (db : DbState) (case_id : Nat) : Option Case :=
  db.cases.find? (fun c => c.case_id == case_id)

/-- `db_manager.get_case_by_path`. -/
def get_case_by_path (db : DbState) (case_path : String) : Option Case :=
  db.cases.find? (fun c => c.case_path == case_path)

/-- `db_manager.get_cases_by_status`. -/
def get_cases_by_status (db : DbState) (status : String) : List Case :=
  db.cases.filter (fun c => c.status == status)

/-- `db_manager.get_gpu_resource`: look a resource up by its group name. -/
def get_gpu_resource (db : DbState) (pueue_group : String) : Option GpuResource :=
  db.resources.find? (fun r => r.pueue_group == pueue_group)

/-- Modelled from the spec: `get_resources_by_status(s)` (§4.1), used by the
zombie-recovery phase but absent from the checked-in `db_manager.py`. -/
def get_resources_by_status (db : DbState) (status : String) : List GpuResource :=
  db.resources.filter (fun r => r.status == status)

/-- Modelled from the spec: `get_gpu_resource_by_case_id(case_id)` (§4.1),
used on restart to re-bind a case to a previously locked resource; absent
from the checked-in `db_manager.py`. -/
def get_gpu_resource_by_case_id (db : DbState) (case_id : Nat) :
    Option GpuResource :=
  db.resources.find? (fun r => r.assigned_case_id == some case_id)

/-- The group names of the rows with `status = 'available'`. -/
def availableGroups (db : DbState) : List String :=
  (db.resources.filter (fun r => r.status == "available")).map (·.pueue_group)

/-- Lexicographically least element of a list of group names (the spec's
tie-break for `find_and_lock_any_available_gpu`). -/
def minString? : List String → Option String
  | [] => none
  | g :: gs => some (gs.foldl (fun a b => if b < a then b else a) g)

/-- Modelled from the spec: `find_and_lock_any_available_gpu(case_id)`
(§4.1), absent from the checked-in `db_manager.py`.  One atomic transaction:
select one `available` row (tie-break: lexicographic on group name), update
it to `assigned, assigned_case_id = case_id`, return the chosen group, or
`null` if none is available. -/
def find_and_lock_any_available_gpu (db : DbState) (case_id : Nat) :
    Option String × DbState :=
  match minString? (availableGroups db) with
  | none => (none, db)
  | some g =>
    (some g, modifyResourcesBy db (fun r => r.pueue_group == g)
      (fun r => { r with status := "assigned", assigned_case_id := some case_id }))

/-- Sequential composition of allocator calls, one per requesting case.  By
the spec's atomicity rule each `find_and_lock_any_available_gpu` call is a
single transaction, so any interleaving of N concurrent callers is equivalent
to some sequential order of the N calls — modelled here as a fold returning
the final store and each caller's result. -/
def lockMany : DbState → List Nat → DbState × List (Option String)
  | db, [] => (db, [])
  | db, cid :: rest =>
    let locked := find_and_lock_any_available_gpu db cid
    let next := lockMany locked.2 rest
    (next.1, locked.1 :: next.2)

/-! ### Remote-executor oracles

Each remote call of `workflow_submitter.py` is a function passed to the phase
that consumes it; its codomain is the method's classified result set. -/

/-- The remote task record returned by `find_task_by_label` (its `"id"`
field may be missing). -/
structure RemoteTask where
  id : Option Nat
  deriving Repr, DecidableEq

/-- Result of `workflow_submitter.find_task_by_label(label)`:
`("found", task?) | ("not_found", None) | ("unreachable", None)`. -/
inductive FindLabelResult
  | found (remote_task : Option RemoteTask)
  | not_found
  | unreachable
  deriving Repr, DecidableEq

/-- Codomain of `workflow_submitter.get_workflow_status`. -/
inductive WStatus
  | success
  | failure
  | running
  | not_found
  | unreachable
  deriving Repr, DecidableEq

/-- Outcome of one `submit_workflow` call as observed by Phase D:
the daemon acknowledged with a parsable id (`ok`), the acknowledgement could
not be parsed (`parse_failed`, the method returns `None`), or the method
raised `WorkflowSubmissionError` for a transport failure
(`unreachable_error`: `TimeoutExpired` / `CalledProcessError`) or for a
confirmed remote rejection (`permanent_error`). -/
inductive SubmitOutcome
  | ok (task_id : Nat)
  | parse_failed
  | unreachable_error
  | permanent_error
  deriving Repr, DecidableEq

/-! ### Phase A — `recover_stuck_submitting_cases` (`main_loop_logic.py`) -/

/-- The body of the Phase A loop for one stuck `submitting` case:
query `find_task_by_label("mqic_case_<id>")` and recover or fail the case
accordingly; on `unreachable`, skip. -/
def recoverOne (find : String → FindLabelResult) (now : Int) (db : DbState)
    (c : Case) : DbState :=
  match find ("mqic_case_" ++ toString c.case_id) with
  | .found remote_task =>
    match remote_task with
    | some t =>
      match t.id with
      | some task_id =>
        update_case_status (update_case_pueue_task_id db c.case_id task_id)
          c.case_id "running" 30
      | none =>
        release_gpu_resource (update_case_completion db c.case_id "failed" now)
          c.case_id
    | none =>
      release_gpu_resource (update_case_completion db c.case_id "failed" now)
        c.case_id
  | .not_found =>
    release_gpu_resource (update_case_completion db c.case_id "failed" now)
      c.case_id
  | .unreachable => db

/-- `recover_stuck_submitting_cases`: snapshot the `submitting` cases, then
run `recoverOne` over the snapshot. -/
def recover_stuck_submitting_cases (find : String → FindLabelResult) (now : Int)
    (db : DbState) : DbState :=
  (get_cases_by_status db "submitting").foldl (recoverOne find now) db

/-! ### Phase B — `manage_running_cases` (`main_loop_logic.py`) -/

/-- The body of the Phase B loop for one `running` case.  The source parses
`case["status_updated_at"]` before anything else (line 79); a missing value
raises, aborting the phase — modelled by `none`.  Then: a `running` case with
no task id is failed and released; a timed-out case is killed best-effort and
failed, its resource released on kill success or zombied on kill failure;
otherwise the remote status drives the terminal transitions
(release before completion). -/
def manageOne (statusOf : Nat → WStatus) (killOf : Nat → Bool)
    (now timeoutDelta : Int) (db : DbState) (c : Case) : Option DbState :=
  match c.status_updated_at with
  | none => none
  | some updatedAt =>
    match c.pueue_task_id with
    | none =>
      some (release_gpu_resource (update_case_completion db c.case_id "failed" now)
        c.case_id)
    | some task_id =>
      if now - updatedAt > timeoutDelta then
        let killed := killOf task_id
        let db1 := update_case_completion db c.case_id "failed" now
        if killed then
          some (release_gpu_resource db1 c.case_id)
        else
          match c.pueue_group with
          | some g => some (update_gpu_status db1 g "zombie" (some c.case_id))
          | none => some db1
      else
        match statusOf task_id with
        | .success =>
          some (update_case_completion (release_gpu_resource db c.case_id)
            c.case_id "completed" now)
        | .failure =>
          some (update_case_completion (release_gpu_resource db c.case_id)
            c.case_id "failed" now)
        | .not_found =>
          some (update_case_completion (release_gpu_resource db c.case_id)
            c.case_id "failed" now)
        | .running => some db
        | .unreachable => some db

/-- Sequential run of `manageOne` over a case list, aborting on the first
raised exception (`none`). -/
def manageList (statusOf : Nat → WStatus) (killOf : Nat → Bool)
    (now timeoutDelta : Int) : DbState → List Case → Option DbState
  | db, [] => some db
  | db, c :: rest =>
    match manageOne statusOf killOf now timeoutDelta db c with
    | none => none
    | some db' => manageList statusOf killOf now timeoutDelta db' rest

/-- `manage_running_cases`: snapshot the `running` cases, then run the loop. -/
def manage_running_cases (statusOf : Nat → WStatus) (killOf : Nat → Bool)
    (now timeoutDelta : Int) (db : DbState) : Option DbState :=
  manageList statusOf killOf now timeoutDelta db (get_cases_by_status db "running")

/-! ### Phase C — `manage_zombie_resources` (`main_loop_logic.py`) -/

/-- The body of the Phase C loop for one `zombie` resource.  The source's
`not (task_id := zombie_case.get("pueue_task_id"))` is Python truthiness, so
a task id of `0` is also treated as missing (skip). -/
def zombieOne (killOf : Nat → Bool) (db : DbState) (r : GpuResource) : DbState :=
  match r.assigned_case_id with
  | none => db
  | some cid =>
    match get_case_by_id db cid with
    | none => db
    | some zc =>
      match zc.pueue_task_id with
      | none => db
      | some task_id =>
        if task_id == 0 then db
        else if killOf task_id then release_gpu_resource db cid
        else db

/-- `manage_zombie_resources`: snapshot the `zombie` resources, then run the
loop. -/
def manage_zombie_resources (killOf : Nat → Bool) (db : DbState) : DbState :=
  (get_resources_by_status db "zombie").foldl (zombieOne killOf) db

/-! ### Phase D — `process_new_submitted_cases` (`main_loop_logic.py`) -/

/-- The resource-locking step of Phase D:
`db.get_gpu_resource_by_case_id(case_id) or
 db.find_and_lock_any_available_gpu(case_id)`. -/
def lockFor (db : DbState) (case_id : Nat) : Option String × DbState :=
  match get_gpu_resource_by_case_id db case_id with
  | some r => (some r.pueue_group, db)
  | none => find_and_lock_any_available_gpu db case_id

/-- The body of the Phase D loop for one `submitted` case; `none` means no
GPU could be locked (the source `break`s out of the loop).  On a locked
group: record the group, mark `submitting(10)`, submit; on an acknowledged
task id mark `running(30)`; on any submit exception or missing id the
catch-all marks the case `failed` and releases its resource. -/
def processOne (submit : Nat → SubmitOutcome) (now : Int) (db : DbState)
    (c : Case) : Option DbState :=
  match lockFor db c.case_id with
  | (none, _) => none
  | (some g, db1) =>
    let db2 := update_case_pueue_group db1 c.case_id g now
    let db3 := update_case_status db2 c.case_id "submitting" 10
    match submit c.case_id with
    | .ok task_id =>
      some (update_case_status (update_case_pueue_task_id db3 c.case_id task_id)
        c.case_id "running" 30)
    | _ =>
      some (release_gpu_resource (update_case_completion db3 c.case_id "failed" now)
        c.case_id)

/-- Sequential run of `processOne` with the source's `break` on lock failure. -/
def processList (submit : Nat → SubmitOutcome) (now : Int) :
    DbState → List Case → DbState
  | db, [] => db
  | db, c :: rest =>
    match processOne submit now db c with
    | none => db
    | some db' => processList submit now db' rest

/-- `process_new_submitted_cases`: snapshot the `submitted` cases, then run
the loop. -/
def process_new_submitted_cases (submit : Nat → SubmitOutcome) (now : Int)
    (db : DbState) : DbState :=
  processList submit now db (get_cases_by_status db "submitted")

/-- The sequence of store states after each commit of the per-case Phase D
handler (each `db_manager` method issues its own `conn.commit()`):
the allocator lock (when taken), the `pueue_group` write, the
`submitting(10)` write, then either the task-id and `running(30)` writes or
the completion and release writes.  An empty list means no commit happened
(no GPU; the loop breaks). -/
def processOneCommits (submit : Nat → SubmitOutcome) (now : Int) (db : DbState)
    (c : Case) : List DbState :=
  let tail := fun (db1 : DbState) (g : String) =>
    let db2 := update_case_pueue_group db1 c.case_id g now
    let db3 := update_case_status db2 c.case_id "submitting" 10
    match submit c.case_id with
    | .ok task_id =>
      let db4 := update_case_pueue_task_id db3 c.case_id task_id
      let db5 := update_case_status db4 c.case_id "running" 30
      [db2, db3, db4, db5]
    | _ =>
      let db4 := update_case_completion db3 c.case_id "failed" now
      let db5 := release_gpu_resource db4 c.case_id
      [db2, db3, db4, db5]
  match get_gpu_resource_by_case_id db c.case_id with
  | some r => tail db r.pueue_group
  | none =>
    match find_and_lock_any_available_gpu db c.case_id with
    | (none, _) => []
    | (some g, db1) => db1 :: tail db1 g

/-- Commit sequence of the whole Phase D loop over its snapshot. -/
def processListCommits (submit : Nat → SubmitOutcome) (now : Int) :
    DbState → List Case → List DbState
  | _, [] => []
  | db, c :: rest =>
    let commits := processOneCommits submit now db c
    match commits.getLast? with
    | none => []
    | some db' => commits ++ processListCommits submit now db' rest

/-- Commit sequence of `process_new_submitted_cases`. -/
def phaseDCommits (submit : Nat → SubmitOutcome) (now : Int) (db : DbState) :
    List DbState :=
  processListCommits submit now db (get_cases_by_status db "submitted")

/-! ### `workflow_submitter.get_workflow_status` -/

/-- One entry of the daemon's `status --json` `tasks` object. -/
structure TaskInfo where
  status : Option String
  result : Option String
  deriving Repr, DecidableEq

/-- The parsed `pueue status --json` payload (`tasks` keyed by the decimal
task id). -/
structure StatusData where
  tasks : List (String × TaskInfo)
  deriving Repr, DecidableEq

/-- Outcome of the `ssh ... pueue status --json` subprocess as seen inside
`get_workflow_status`: the command timed out, exited non-zero, or produced
stdout (whose JSON decode either succeeded or raised). -/
inductive PueueStatusOutcome
  | timeout_expired
  | called_process_error
  | output (parsed : Option StatusData)
  deriving Repr, DecidableEq

/-- `workflow_submitter.get_workflow_status(task_id)`: transport failures map
to `unreachable`; undecodable JSON maps to `failure`; a task absent from the
listing is `not_found`; `Done` splits on `result == "success"`; `Failed` and
`Killing` are `failure`; every other daemon status (`Running`, `Queued`,
`Paused`, a missing status field, ...) is `running`. -/
def get_workflow_status (outcome : PueueStatusOutcome) (task_id : Nat) : WStatus :=
  match outcome with
  | .timeout_expired => .unreachable
  | .called_process_error => .unreachable
  | .output none => .failure
  | .output (some status_data) =>
    match status_data.tasks.find? (fun kv => kv.1 == toString task_id) with
    | none => .not_found
    | some kv =>
      match kv.2.status with
      | some "Done" => if kv.2.result == some "success" then .success else .failure
      | some "Failed" => .failure
      | some "Killing" => .failure
      | _ => .running

/-! ### `workflow_submitter.submit_workflow` and `_parse_pueue_add_output` -/

/-- Numeric value of a decimal digit string, most significant digit first. -/
def digitsVal (ds : List Char) : Nat :=
  ds.foldl (fun a c => a * 10 + (c.toNat - 48)) 0

/-- Matches the literal prefix `"(id: "` and returns the remaining
characters. -/
def idTagRest : List Char → Option (List Char)
  | '(' :: 'i' :: 'd' :: ':' :: ' ' :: rest => some rest
  | _ => none

/-- One anchored attempt of the regex `\(id: (\d+)\)` at the head of `l`:
the literal tag, then one or more digits, then `')'`. -/
def matchIdAt (l : List Char) : Option Nat :=
  match idTagRest l with
  | none => none
  | some rest =>
    match rest.takeWhile Char.isDigit with
    | [] => none
    | ds =>
      match rest.dropWhile Char.isDigit with
      | ')' :: _ => some (digitsVal ds)
      | _ => none

/-- Leftmost match of `\(id: (\d+)\)` (`re.search` in
`_parse_pueue_add_output`). -/
def scanForId : List Char → Option Nat
  | [] => none
  | c :: cs =>
    match matchIdAt (c :: cs) with
    | some n => some n
    | none => scanForId cs

/-- `workflow_submitter._parse_pueue_add_output`: extract the task id from
the daemon's acknowledgement line (e.g. `"New task added (id: 2)."`),
or `None` when the pattern is absent. -/
def parse_pueue_add_output (s : String) : Option Nat :=
  scanForId s.data

/-- `Path(p).name`: the characters after the last `'/'` (paths here carry no
trailing slash, as produced by the scanner). -/
def basename (p : String) : String :=
  ⟨(p.data.reverse.takeWhile (fun c => c != '/')).reverse⟩

/-- The `hpc` configuration keys consumed by `submit_workflow`. -/
structure HpcConfig where
  remote_base_dir : String
  remote_command : String
  deriving Repr, DecidableEq

/-- The remote path the case lands at: `remote_base_dir/<safe_case_name>`,
where the name is basenamed twice to block traversal
(`Path(Path(case_path).name).name`). -/
def remotePath (cfg : HpcConfig) (case_path : String) : String :=
  cfg.remote_base_dir ++ "/" ++ basename (basename case_path)

/-- The enqueue request `submit_workflow` sends to the daemon (shell quoting
of the remote path elided). -/
structure SubmitRequest where
  remote_path : String
  pueue_group : String
  label : String
  remote_command : String
  deriving Repr, DecidableEq

/-- Modelled from the spec: the current `submit_workflow(case_id, case_path,
pueue_group)` variant invoked by the main loop (the checked-in
`workflow_submitter.py` holds a superseded label-less variant whose signature
rejects the callers' `case_id` argument).  Per §4.2 it copies the case to
`remote_base_dir/<basename>` and enqueues
`cd <remote_path> && <remote_command>` under `pueue_group` with label
`"mqic_case_<case_id>"`; the remote-path and id-parse pieces follow the
checked-in source. -/
def submit_workflow (cfg : HpcConfig) (case_id : Nat) (case_path : String)
    (pueue_group : String) : SubmitRequest :=
  { remote_path := remotePath cfg case_path
  , pueue_group := pueue_group
  , label := "mqic_case_" ++ toString case_id
  , remote_command := "cd " ++ remotePath cfg case_path ++ " && " ++ cfg.remote_command }

/-- The value `submit_workflow` returns once the daemon acknowledged with
`ack`: the parsed task id, or `None` when parsing fails. -/
def submit_workflow_result (ack : String) : Option Nat :=
  parse_pueue_add_output ack

/-! ### `case_scanner.py` — stable-directory handler -/

/-- Result of the `store.add_case` call made by the scanner. -/
inductive AddCaseResult
  | ok (case_id : Nat)
  | error
  deriving Repr, DecidableEq

/-- `AddCaseResult.ok` projection. -/
def AddCaseResult.isOk : AddCaseResult → Bool
  | .ok _ => true
  | .error => false

/-- Observable outcome of one `_process_directory` timer callback. -/
structure ScannerOutcome where
  addAttempts : Nat
  added : Bool
  retriesScheduled : Nat
  raised : Bool
  deriving Repr, DecidableEq

/-- `StableDirectoryEventHandler._process_directory(path)`: skip if the
directory no longer exists; otherwise, inside a catch-all `try`, add the case
only when `get_case_by_path` finds nothing; any error is logged and swallowed
— no retry is scheduled and nothing propagates to the watcher. -/
def process_directory (dirExists : Bool) (existing : Option Case)
    (addResult : AddCaseResult) : ScannerOutcome :=
  if !dirExists then
    { addAttempts := 0, added := false, retriesScheduled := 0, raised := false }
  else
    match existing with
    | some _ =>
      { addAttempts := 0, added := false, retriesScheduled := 0, raised := false }
    | none =>
      { addAttempts := 1, added := addResult.isOk, retriesScheduled := 0
      , raised := false }

/-- `StableDirectoryEventHandler._reset_timer(path)`: cancel any pending
timer for `path` and store a fresh one (`self.timers[path] = timer`).
The map is an association list of `(path, deadline)`. -/
def reset_timer (timers : List (String × Int)) (path : String) (fresh : Int) :
    List (String × Int) :=
  (timers.filter (fun e => e.1 != path)) ++ [(path, fresh)]

/-- The pending timer for `path`. -/
def lookupTimer (timers : List (String × Int)) (path : String) : Option Int :=
  (timers.find? (fun e => e.1 == path)).map (·.2)

/-! ### Column lists of the checked-in `db_manager.py` (claim C5) -/

/-- The columns of the `cases` table as declared by
`db_manager._create_tables` in the checked-in source. -/
def src_cases_columns : List String :=
  ["case_id", "case_path", "status", "progress", "pueue_group",
   "pueue_task_id", "submitted_at", "completed_at"]

/-- Columns written by the checked-in `update_case_status`
(`SET status = ?, progress = ?`). -/
def src_update_case_status_set_columns : List String :=
  ["status", "progress"]

/-- Columns written by the checked-in `update_case_pueue_task_id`
(`SET pueue_task_id = ?`). -/
def src_update_case_pueue_task_id_set_columns : List String :=
  ["pueue_task_id"]

/-- Columns written by the checked-in `update_case_completion`
(`SET status = ?, progress = 100, completed_at = ?`). -/
def src_update_case_completion_set_columns : List String :=
  ["status", "progress", "completed_at"]

/-- Case columns read by `manage_running_cases` for each running case
(`case_id`, `pueue_task_id`, `status_updated_at`, `pueue_group`). -/
def manage_running_cases_read_columns : List String :=
  ["case_id", "pueue_task_id", "status_updated_at", "pueue_group"]

/-! ### Invariant predicates and concrete stores used by counterexamples and
witnesses -/

/-- §3 invariant 1: every `submitted` case has `pueue_group = NULL` and
`pueue_task_id = NULL`. -/
def SubmittedNullInv (db : DbState) : Prop :=
  ∀ c ∈ db.cases, c.status = "submitted" →
    c.pueue_group = none ∧ c.pueue_task_id = none

/-- The empty store. -/
def emptyDb : DbState := { cases := [], resources := [] }

/-- Store with one `submitting` case bound to `gpu_a` (claim C1's witness). -/
def wcaseA : Case :=
  { case_id := 1, case_path := "/w/c1", status := "submitting", progress := 10,
    pueue_group := some "gpu_a", pueue_task_id := none, submitted_at := 0,
    status_updated_at := some 0, completed_at := none }

/-- See `wcaseA`. -/
def wdbA : DbState :=
  { cases := [wcaseA]
  , resources := [{ pueue_group := "gpu_a", status := "assigned",
                    assigned_case_id := some 1 }] }

/-- Remote oracle which reports the orphaned task `77` for every label. -/
def wfindA : String → FindLabelResult :=
  fun _ => FindLabelResult.found (some { id := some 77 })

/-- Store with one timed-out `running` case bound to `gpu_a`
(claim C3's witness). -/
def wcaseB : Case :=
  { case_id := 1, case_path := "/w/c1", status := "running", progress := 30,
    pueue_group := some "gpu_a", pueue_task_id := some 5, submitted_at := 0,
    status_updated_at := some 0, completed_at := none }

/-- See `wcaseB`. -/
def wdbB : DbState :=
  { cases := [wcaseB]
  , resources := [{ pueue_group := "gpu_a", status := "assigned",
                    assigned_case_id := some 1 }] }

/-- One freshly staged `submitted` case (claim C2). -/
def c2case0 : Case :=
  { case_id := 1, case_path := "/w/c1", status := "submitted", progress := 0,
    pueue_group := none, pueue_task_id := none, submitted_at := 0,
    status_updated_at := some 0, completed_at := none }

/-- Store with one `submitted` case and one free GPU (claim C2). -/
def c2db : DbState :=
  { cases := [c2case0]
  , resources := [{ pueue_group := "gpu_a", status := "available",
                    assigned_case_id := none }] }

/-- Submit oracle: every submit call fails with a transport error. -/
def c2submit : Nat → SubmitOutcome := fun _ => SubmitOutcome.unreachable_error

/-- The store left by the Phase D handler on `c2case0` under `c2submit`. -/
def c2dbAfter : DbState :=
  (processOne c2submit 0 c2db c2case0).getD emptyDb

/-- Store built through the modelled operations: one registered GPU group and
one scanner-created case (claim C4). -/
def c4db : DbState :=
  (add_case (add_gpu_resource emptyDb "gpu_a" "available") "/w/c1" 0).2

/-- Submit oracle: the daemon acknowledges every submission as task 42. -/
def c4submit : Nat → SubmitOutcome := fun _ => SubmitOutcome.ok 42

/-- Store with two available GPU groups (claim C7's witness). -/
def c7db : DbState :=
  { cases := []
  , resources :=
      [{ pueue_group := "gpu_a", status := "available", assigned_case_id := none },
       { pueue_group := "gpu_b", status := "available", assigned_case_id := none }] }

/-! ## Lemma kernel: keyed lookups against keyed row updates -/

theorem find?_map_invariant {α : Type} (g : α → α) (q : α → Bool)
    (hq : ∀ a, q (g a) = q a) :
    ∀ l : List α, (l.map g).find? q = (l.find? q).map g := by
  intro l
  induction l with
  | nil => rfl
  | cons a l ih =>
    simp only [List.map_cons, List.find?_cons, hq a]
    cases h : q a
    · simpa using ih
    · rfl

theorem mem_map_invariant {α : Type} (g : α → α) (l : List α) (a : α)
    (ha : a ∈ l) (hfix : g a = a) : a ∈ l.map g :=
  List.mem_map.mpr ⟨a, ha, hfix⟩

theorem find?_key_self {α β : Type} [BEq β] [LawfulBEq β] (key : α → β)
    (l : List α) (hnd : (l.map key).Nodup) (a : α) (ha : a ∈ l) :
    l.find? (fun x => key x == key a) = some a := by
  induction l with
  | nil => cases ha
  | cons b l ih =>
    simp only [List.map_cons, List.nodup_cons] at hnd
    rcases List.mem_cons.mp ha with rfl | hmem
    · simp [List.find?_cons]
    · have hne : (key b == key a) = false := by
        apply beq_eq_false_iff_ne.mpr
        intro hkeq
        exact hnd.1 (hkeq ▸ List.mem_map_of_mem key hmem)
      simp only [List.find?_cons, hne]
      exact ih hnd.2 hmem

theorem cases_modifyResourcesBy (db : DbState) (p : GpuResource → Bool)
    (f : GpuResource → GpuResource) : (modifyResourcesBy db p f).cases = db.cases :=
  rfl

theorem resources_modifyCase (db : DbState) (i : Nat) (f : Case → Case) :
    (modifyCase db i f).resources = db.resources :=
  rfl

theorem get_case_by_id_modifyCase (db : DbState) (i : Nat) (f : Case → Case)
    (j : Nat) (hf : ∀ c, (f c).case_id = c.case_id) :
    get_case_by_id (modifyCase db i f) j
      = (get_case_by_id db j).map (fun c => if c.case_id == i then f c else c) := by
  apply find?_map_invariant
  intro c
  by_cases h : c.case_id == i <;> simp [h, hf]

theorem get_case_by_id_modifyCase_ne (db : DbState) (i : Nat) (f : Case → Case)
    (j : Nat) (hf : ∀ c, (f c).case_id = c.case_id) (hj : j ≠ i) :
    get_case_by_id (modifyCase db i f) j = get_case_by_id db j := by
  rw [get_case_by_id_modifyCase db i f j hf]
  cases hfind : get_case_by_id db j with
  | none => rfl
  | some c =>
    have hc : c.case_id = j := by
      have := List.find?_some hfind
      simpa using this
    simp [hc, hj]

theorem get_case_by_id_modifyCase_eq (db : DbState) (i : Nat) (f : Case → Case)
    (hf : ∀ c, (f c).case_id = c.case_id) :
    get_case_by_id (modifyCase db i f) i = (get_case_by_id db i).map f := by
  rw [get_case_by_id_modifyCase db i f i hf]
  cases hfind : get_case_by_id db i with
  | none => rfl
  | some c =>
    have hc : c.case_id = i := by
      have := List.find?_some hfind
      simpa using this
    simp [hc]

theorem get_gpu_resource_modifyResourcesBy (db : DbState)
    (p : GpuResource → Bool) (f : GpuResource → GpuResource) (g : String)
    (hf : ∀ r, (f r).pueue_group = r.pueue_group) :
    get_gpu_resource (modifyResourcesBy db p f) g
      = (get_gpu_resource db g).map (fun r => if p r then f r else r) := by
  apply find?_map_invariant
  intro r
  by_cases h : p r <;> simp [h, hf]

theorem get_gpu_resource_modifyResourcesBy_notp (db : DbState)
    (p : GpuResource → Bool) (f : GpuResource → GpuResource) (g : String)
    (r : GpuResource)
    (hf : ∀ x, (f x).pueue_group = x.pueue_group)
    (hfind : get_gpu_resource db g = some r) (hp : p r = false) :
    get_gpu_resource (modifyResourcesBy db p f) g = some r := by
  rw [get_gpu_resource_modifyResourcesBy db p f g hf, hfind]
  simp [hp]

theorem get_case_by_id_modifyResourcesBy (db : DbState) (p : GpuResource → Bool)
    (f : GpuResource → GpuResource) (j : Nat) :
    get_case_by_id (modifyResourcesBy db p f) j = get_case_by_id db j :=
  rfl

theorem get_gpu_resource_modifyCase (db : DbState) (i : Nat) (f : Case → Case)
    (g : String) :
    get_gpu_resource (modifyCase db i f) g = get_gpu_resource db g :=
  rfl

/-! ## Specializations of the kernel lemmas to the store operations -/

theorem get_case_by_id_update_case_status_ne (db : DbState) (i : Nat)
    (s : String) (p j : Nat) (hj : j ≠ i) :
    get_case_by_id (update_case_status db i s p) j = get_case_by_id db j :=
  get_case_by_id_modifyCase_ne db i _ j (fun _ => rfl) hj

theorem get_case_by_id_update_case_status_eq (db : DbState) (i : Nat)
    (s : String) (p : Nat) :
    get_case_by_id (update_case_status db i s p) i
      = (get_case_by_id db i).map (fun c => { c with status := s, progress := p }) :=
  get_case_by_id_modifyCase_eq db i _ (fun _ => rfl)

theorem get_case_by_id_update_case_pueue_task_id_ne (db : DbState) (i t j : Nat)
    (hj : j ≠ i) :
    get_case_by_id (update_case_pueue_task_id db i t) j = get_case_by_id db j :=
  get_case_by_id_modifyCase_ne db i _ j (fun _ => rfl) hj

theorem get_case_by_id_update_case_pueue_task_id_eq (db : DbState) (i t : Nat) :
    get_case_by_id (update_case_pueue_task_id db i t) i
      = (get_case_by_id db i).map (fun c => { c with pueue_task_id := some t }) :=
  get_case_by_id_modifyCase_eq db i _ (fun _ => rfl)

theorem get_case_by_id_update_case_completion_ne (db : DbState) (i : Nat)
    (s : String) (now : Int) (j : Nat) (hj : j ≠ i) :
    get_case_by_id (update_case_completion db i s now) j = get_case_by_id db j :=
  get_case_by_id_modifyCase_ne db i _ j (fun _ => rfl) hj

theorem get_case_by_id_update_case_completion_eq (db : DbState) (i : Nat)
    (s : String) (now : Int) :
    get_case_by_id (update_case_completion db i s now) i
      = (get_case_by_id db i).map
          (fun c => { c with status := s, progress := 100, completed_at := some now }) :=
  get_case_by_id_modifyCase_eq db i _ (fun _ => rfl)

theorem get_case_by_id_update_case_pueue_group_ne (db : DbState) (i : Nat)
    (g : String) (now : Int) (j : Nat) (hj : j ≠ i) :
    get_case_by_id (update_case_pueue_group db i g now) j = get_case_by_id db j :=
  get_case_by_id_modifyCase_ne db i _ j (fun _ => rfl) hj

theorem get_case_by_id_update_case_pueue_group_eq (db : DbState) (i : Nat)
    (g : String) (now : Int) :
    get_case_by_id (update_case_pueue_group db i g now) i
      = (get_case_by_id db i).map
          (fun c => { c with pueue_group := some g, status_updated_at := some now }) :=
  get_case_by_id_modifyCase_eq db i _ (fun _ => rfl)

theorem get_case_by_id_release (db : DbState) (cid : Nat) (j : Nat) :
    get_case_by_id (release_gpu_resource db cid) j = get_case_by_id db j :=
  rfl

theorem get_case_by_id_update_gpu_status (db : DbState) (g s : String)
    (cid : Option Nat) (j : Nat) :
    get_case_by_id (update_gpu_status db g s cid) j = get_case_by_id db j :=
  rfl

theorem get_gpu_resource_release_notassigned (db : DbState) (cid : Nat)
    (g : String) (r : GpuResource) (hfind : get_gpu_resource db g = some r)
    (hp : r.assigned_case_id ≠ some cid) :
    get_gpu_resource (release_gpu_resource db cid) g = some r :=
  get_gpu_resource_modifyResourcesBy_notp db _ _ g r (fun _ => rfl) hfind
    (by simpa using hp)

theorem get_gpu_resource_update_gpu_status_ne (db : DbState) (g' s : String)
    (cid : Option Nat) (g : String) (r : GpuResource)
    (hfind : get_gpu_resource db g = some r) (hg : r.pueue_group ≠ g') :
    get_gpu_resource (update_gpu_status db g' s cid) g = some r :=
  get_gpu_resource_modifyResourcesBy_notp db _ _ g r (fun _ => rfl) hfind
    (by simpa using hg)

theorem mem_resources_release (db : DbState) (cid : Nat) (r : GpuResource)
    (hr : r ∈ db.resources) (hp : r.assigned_case_id ≠ some cid) :
    r ∈ (release_gpu_resource db cid).resources :=
  mem_map_invariant _ _ r hr (by simp [show (r.assigned_case_id == some cid) = false by simpa using hp])

/-! ## Phase A lemmas -/

theorem recoverOne_frame_case (find : String → FindLabelResult) (now : Int)
    (db : DbState) (c'' : Case) (k : Nat) (hne : c''.case_id ≠ k) :
    get_case_by_id (recoverOne find now db c'') k = get_case_by_id db k := by
  have hk := Ne.symm hne
  cases hf : find ("mqic_case_" ++ toString c''.case_id) with
  | found remote_task =>
    cases remote_task with
    | some t =>
      cases ht : t.id with
      | some task_id =>
        simp only [recoverOne, hf, ht]
        rw [get_case_by_id_update_case_status_ne _ _ _ _ _ hk,
          get_case_by_id_update_case_pueue_task_id_ne _ _ _ _ hk]
      | none =>
        simp only [recoverOne, hf, ht]
        rw [get_case_by_id_release,
          get_case_by_id_update_case_completion_ne _ _ _ _ _ hk]
    | none =>
      simp only [recoverOne, hf]
      rw [get_case_by_id_release,
        get_case_by_id_update_case_completion_ne _ _ _ _ _ hk]
  | not_found =>
    simp only [recoverOne, hf]
    rw [get_case_by_id_release,
      get_case_by_id_update_case_completion_ne _ _ _ _ _ hk]
  | unreachable => simp only [recoverOne, hf]

theorem recoverOne_frame_resource (find : String → FindLabelResult) (now : Int)
    (db : DbState) (c'' : Case) (k : Nat) (r : GpuResource)
    (hne : c''.case_id ≠ k) (hr : r ∈ db.resources)
    (ha : r.assigned_case_id = some k) :
    r ∈ (recoverOne find now db c'').resources := by
  have hp : r.assigned_case_id ≠ some c''.case_id := by
    rw [ha]
    exact fun h => hne (by injection h with h; exact h.symm)
  cases hf : find ("mqic_case_" ++ toString c''.case_id) with
  | found remote_task =>
    cases remote_task with
    | some t =>
      cases ht : t.id with
      | some task_id =>
        simp only [recoverOne, hf, ht]
        exact hr
      | none =>
        simp only [recoverOne, hf, ht]
        exact mem_resources_release _ _ r hr hp
    | none =>
      simp only [recoverOne, hf]
      exact mem_resources_release _ _ r hr hp
  | not_found =>
    simp only [recoverOne, hf]
    exact mem_resources_release _ _ r hr hp
  | unreachable =>
    simp only [recoverOne, hf]
    exact hr

theorem foldA_frame (find : String → FindLabelResult) (now : Int) (k : Nat)
    (cs : List Case) :
    ∀ db : DbState, (∀ c'' ∈ cs, c''.case_id ≠ k) →
      get_case_by_id (cs.foldl (recoverOne find now) db) k = get_case_by_id db k
      ∧ ∀ r ∈ db.resources, r.assigned_case_id = some k →
          r ∈ (cs.foldl (recoverOne find now) db).resources := by
  induction cs with
  | nil => exact fun db _ => ⟨rfl, fun r hr _ => hr⟩
  | cons c'' cs ih =>
    intro db hall
    have hne := hall c'' (List.mem_cons_self _ _)
    have hrest := fun x hx => hall x (List.mem_cons_of_mem _ hx)
    obtain ⟨ihc, ihr⟩ := ih (recoverOne find now db c'') hrest
    refine ⟨?_, ?_⟩
    · rw [List.foldl_cons, ihc, recoverOne_frame_case find now db c'' k hne]
    · intro r hr ha
      exact ihr r (recoverOne_frame_resource find now db c'' k r hne hr ha) ha

/-- C1. For every case `c` in status `submitting` at the start of Phase A, if
the remote `find_task_by_label("mqic_case_<c.case_id>")` lookup returns
`found` with a task id `t`, then after Phase A the case is `running` with
`pueue_task_id = t`; it is not marked `failed` and any GPU resource assigned
to it is left untouched (not released). -/
theorem phase_a_recovers_found_submitting_case
    (find : String → FindLabelResult) (now : Int) (db : DbState) (c : Case)
    (t : Nat)
    (hnodup : (db.cases.map (·.case_id)).Nodup)
    (hc : c ∈ db.cases) (hstat : c.status = "submitting")
    (hfind : find ("mqic_case_" ++ toString c.case_id)
      = FindLabelResult.found (some { id := some t })) :
    ((get_case_by_id (recover_stuck_submitting_cases find now db) c.case_id).map
        (fun x => (x.status, x.pueue_task_id)) = some ("running", some t))
    ∧ ((get_case_by_id (recover_stuck_submitting_cases find now db) c.case_id).map
        (·.status) ≠ some "failed")
    ∧ (∀ r ∈ db.resources, r.assigned_case_id = some c.case_id →
        r ∈ (recover_stuck_submitting_cases find now db).resources) := by
  have hcs : c ∈ get_cases_by_status db "submitting" :=
    List.mem_filter.mpr ⟨hc, by simp [hstat]⟩
  have hsub : List.Sublist (get_cases_by_status db "submitting") db.cases :=
    List.filter_sublist _
  have hsnnd : ((get_cases_by_status db "submitting").map (·.case_id)).Nodup :=
    hnodup.sublist (hsub.map (·.case_id))
  obtain ⟨l1, l2, hsplit⟩ := List.append_of_mem hcs
  have hmid : c.case_id ∉ l1.map (·.case_id) ++ l2.map (·.case_id) := by
    have := hsnnd
    rw [hsplit, List.map_append, List.map_cons] at this
    exact (List.nodup_cons.mp (List.nodup_middle.mp this)).1
  have hL1 : ∀ x ∈ l1, x.case_id ≠ c.case_id := by
    intro x hx hxe
    exact hmid (List.mem_append.mpr (Or.inl (hxe ▸ List.mem_map_of_mem _ hx)))
  have hL2 : ∀ x ∈ l2, x.case_id ≠ c.case_id := by
    intro x hx hxe
    exact hmid (List.mem_append.mpr (Or.inr (hxe ▸ List.mem_map_of_mem _ hx)))
  have hphase : recover_stuck_submitting_cases find now db
      = l2.foldl (recoverOne find now)
          (recoverOne find now (l1.foldl (recoverOne find now) db) c) := by
    rw [recover_stuck_submitting_cases, hsplit, List.foldl_append, List.foldl_cons]
  obtain ⟨h1c, h1r⟩ := foldA_frame find now c.case_id l1 db hL1
  have hlook : get_case_by_id (l1.foldl (recoverOne find now) db) c.case_id
      = some c := by
    rw [h1c]
    exact find?_key_self (·.case_id) db.cases hnodup c hc
  have hstep : recoverOne find now (l1.foldl (recoverOne find now) db) c
      = update_case_status
          (update_case_pueue_task_id (l1.foldl (recoverOne find now) db)
            c.case_id t) c.case_id "running" 30 := by
    simp only [recoverOne, hfind]
  have hrow : get_case_by_id
      (recoverOne find now (l1.foldl (recoverOne find now) db) c) c.case_id
      = some { { c with pueue_task_id := some t } with
          status := "running", progress := 30 } := by
    rw [hstep, get_case_by_id_update_case_status_eq,
      get_case_by_id_update_case_pueue_task_id_eq, hlook]
    rfl
  obtain ⟨h3c, h3r⟩ := foldA_frame find now c.case_id l2
    (recoverOne find now (l1.foldl (recoverOne find now) db) c) hL2
  have hfinal : get_case_by_id (recover_stuck_submitting_cases find now db)
      c.case_id
      = some { { c with pueue_task_id := some t } with
          status := "running", progress := 30 } := by
    rw [hphase, h3c, hrow]
  refine ⟨by rw [hfinal]; rfl, by rw [hfinal]; simp, ?_⟩
  intro r hr ha
  have hr1 := h1r r hr ha
  have hr2 : r ∈ (recoverOne find now (l1.foldl (recoverOne find now) db)
      c).resources := by
    rw [hstep]
    exact hr1
  rw [hphase]
  exact h3r r hr2 ha

/-! ## Phase B lemmas -/

theorem get_gpu_resource_release_assigned (db : DbState) (cid : Nat)
    (g : String) (r : GpuResource) (hfind : get_gpu_resource db g = some r)
    (hp : r.assigned_case_id = some cid) :
    get_gpu_resource (release_gpu_resource db cid) g
      = some { r with status := "available", assigned_case_id := none } := by
  rw [release_gpu_resource,
    get_gpu_resource_modifyResourcesBy db
      (fun x => x.assigned_case_id == some cid)
      (fun x => { x with status := "available", assigned_case_id := none }) g
      (fun _ => rfl), hfind]
  simp [hp]

theorem get_gpu_resource_update_gpu_status_eq (db : DbState) (g s : String)
    (cid : Option Nat) (r : GpuResource)
    (hfind : get_gpu_resource db g = some r) :
    get_gpu_resource (update_gpu_status db g s cid) g
      = some { r with status := s, assigned_case_id := cid } := by
  have hrg : (r.pueue_group == g) = true := by
    simpa using List.find?_some hfind
  rw [update_gpu_status,
    get_gpu_resource_modifyResourcesBy db
      (fun x => x.pueue_group == g)
      (fun x => { x with status := s, assigned_case_id := cid }) g
      (fun _ => rfl), hfind]
  simp only [Option.map_some']
  rw [if_pos hrg]

theorem manageOne_frame (statusOf : Nat → WStatus) (killOf : Nat → Bool)
    (now delta : Int) (db : DbState) (c'' : Case) (k : Nat) (g : String)
    (r : GpuResource)
    (hne : c''.case_id ≠ k) (hts : c''.status_updated_at ≠ none)
    (hg : c''.pueue_group ≠ some g)
    (hfind : get_gpu_resource db g = some r)
    (hra : r.assigned_case_id = none ∨ r.assigned_case_id = some k) :
    ∃ db', manageOne statusOf killOf now delta db c'' = some db'
      ∧ get_case_by_id db' k = get_case_by_id db k
      ∧ get_gpu_resource db' g = some r := by
  have hk := Ne.symm hne
  have hrne : r.assigned_case_id ≠ some c''.case_id := by
    rcases hra with h | h <;> rw [h] <;> intro hx
    · cases hx
    · exact hne (by injection hx with hx; exact hx.symm)
  have hcomp_case : ∀ dbx : DbState,
      get_case_by_id (update_case_completion dbx c''.case_id "failed" now) k
        = get_case_by_id dbx k :=
    fun dbx => get_case_by_id_update_case_completion_ne dbx _ _ _ _ hk
  have hcomp_res : ∀ dbx : DbState,
      get_gpu_resource (update_case_completion dbx c''.case_id "failed" now) g
        = get_gpu_resource dbx g :=
    fun dbx => rfl
  cases hts' : c''.status_updated_at with
  | none => exact absurd hts' hts
  | some updatedAt =>
    cases htask : c''.pueue_task_id with
    | none =>
      refine ⟨release_gpu_resource
        (update_case_completion db c''.case_id "failed" now) c''.case_id,
        by simp [manageOne, hts', htask], ?_, ?_⟩
      · rw [get_case_by_id_release, hcomp_case]
      · exact get_gpu_resource_release_notassigned _ _ _ r
          (by rw [hcomp_res]; exact hfind) hrne
    | some task_id =>
      by_cases htime : now - updatedAt > delta
      · cases hkill : killOf task_id with
        | true =>
          refine ⟨release_gpu_resource
            (update_case_completion db c''.case_id "failed" now) c''.case_id,
            by simp [manageOne, hts', htask, htime, hkill], ?_, ?_⟩
          · rw [get_case_by_id_release, hcomp_case]
          · exact get_gpu_resource_release_notassigned _ _ _ r
              (by rw [hcomp_res]; exact hfind) hrne
        | false =>
          cases hgrp : c''.pueue_group with
          | some gz =>
            have hrgz : r.pueue_group ≠ gz := by
              have hrg : r.pueue_group = g := by
                simpa using List.find?_some hfind
              rw [hrg]
              intro hgg
              exact hg (by rw [hgrp, hgg])
            refine ⟨update_gpu_status
              (update_case_completion db c''.case_id "failed" now) gz "zombie"
              (some c''.case_id),
              by simp [manageOne, hts', htask, htime, hkill, hgrp], ?_, ?_⟩
            · rw [get_case_by_id_update_gpu_status, hcomp_case]
            · exact get_gpu_resource_update_gpu_status_ne _ _ _ _ _ r
                (by rw [hcomp_res]; exact hfind) hrgz
          | none =>
            refine ⟨update_case_completion db c''.case_id "failed" now,
              by simp [manageOne, hts', htask, htime, hkill, hgrp], ?_, ?_⟩
            · exact hcomp_case db
            · rw [hcomp_res]; exact hfind
      · cases hst : statusOf task_id with
        | success =>
          refine ⟨update_case_completion
            (release_gpu_resource db c''.case_id) c''.case_id "completed" now,
            by simp [manageOne, hts', htask, htime, hst], ?_, ?_⟩
          · rw [get_case_by_id_update_case_completion_ne _ _ _ _ _ hk,
              get_case_by_id_release]
          · exact get_gpu_resource_release_notassigned _ _ _ r hfind hrne
        | failure =>
          refine ⟨update_case_completion
            (release_gpu_resource db c''.case_id) c''.case_id "failed" now,
            by simp [manageOne, hts', htask, htime, hst], ?_, ?_⟩
          · rw [get_case_by_id_update_case_completion_ne _ _ _ _ _ hk,
              get_case_by_id_release]
          · exact get_gpu_resource_release_notassigned _ _ _ r hfind hrne
        | not_found =>
          refine ⟨update_case_completion
            (release_gpu_resource db c''.case_id) c''.case_id "failed" now,
            by simp [manageOne, hts', htask, htime, hst], ?_, ?_⟩
          · rw [get_case_by_id_update_case_completion_ne _ _ _ _ _ hk,
              get_case_by_id_release]
          · exact get_gpu_resource_release_notassigned _ _ _ r hfind hrne
        | running =>
          exact ⟨db, by simp [manageOne, hts', htask, htime, hst], rfl, hfind⟩
        | unreachable =>
          exact ⟨db, by simp [manageOne, hts', htask, htime, hst], rfl, hfind⟩

theorem manageList_frame (statusOf : Nat → WStatus) (killOf : Nat → Bool)
    (now delta : Int) (k : Nat) (g : String) (r : GpuResource)
    (cs : List Case) :
    ∀ db : DbState,
      (∀ x ∈ cs, x.case_id ≠ k ∧ x.status_updated_at ≠ none ∧
        x.pueue_group ≠ some g) →
      get_gpu_resource db g = some r →
      (r.assigned_case_id = none ∨ r.assigned_case_id = some k) →
      ∃ db', manageList statusOf killOf now delta db cs = some db'
        ∧ get_case_by_id db' k = get_case_by_id db k
        ∧ get_gpu_resource db' g = some r := by
  induction cs with
  | nil => exact fun db _ hfind _ => ⟨db, rfl, rfl, hfind⟩
  | cons x cs ih =>
    intro db hall hfind hra
    obtain ⟨hne, hts, hg⟩ := hall x (List.mem_cons_self _ _)
    obtain ⟨db1, hmo, hc1, hr1⟩ :=
      manageOne_frame statusOf killOf now delta db x k g r hne hts hg hfind hra
    obtain ⟨db2, hml, hc2, hr2⟩ :=
      ih db1 (fun y hy => hall y (List.mem_cons_of_mem _ hy)) hr1 hra
    refine ⟨db2, ?_, by rw [hc2, hc1], hr2⟩
    simp only [manageList, hmo]
    exact hml

theorem manageList_append (statusOf : Nat → WStatus) (killOf : Nat → Bool)
    (now delta : Int) (cs1 cs2 : List Case) :
    ∀ db : DbState,
      manageList statusOf killOf now delta db (cs1 ++ cs2)
        = (manageList statusOf killOf now delta db cs1).bind
            (fun db1 => manageList statusOf killOf now delta db1 cs2) := by
  induction cs1 with
  | nil => intro db; rfl
  | cons x cs1 ih =>
    intro db
    simp only [List.cons_append, manageList]
    cases manageOne statusOf killOf now delta db x with
    | none => rfl
    | some db1 => exact ih db1

/-- C3. For every `running` case whose time since `status_updated_at` exceeds
the running-case timeout budget (and which carries a task id and a bound
group, as the invariants require), Phase B marks the case `failed` regardless
of the kill outcome; its resource ends `available` when `kill(task)` returns
true, and `zombie` with `assigned_case_id = case_id` when `kill(task)`
returns false. -/
theorem phase_b_timeout_kill_outcomes
    (statusOf : Nat → WStatus) (killOf : Nat → Bool) (now delta : Int)
    (db : DbState) (c : Case) (tid : Nat) (ts : Int) (g : String)
    (r : GpuResource)
    (hnodup : (db.cases.map (·.case_id)).Nodup)
    (hc : c ∈ db.cases) (hstat : c.status = "running")
    (htask : c.pueue_task_id = some tid)
    (hupd : c.status_updated_at = some ts)
    (htime : now - ts > delta)
    (hgrp : c.pueue_group = some g)
    (hfind : get_gpu_resource db g = some r)
    (hra : r.assigned_case_id = some c.case_id)
    (hparse : ∀ x ∈ db.cases, x.status = "running" → x.status_updated_at ≠ none)
    (hexcl : ∀ x ∈ db.cases, x.status = "running" → x.case_id ≠ c.case_id →
      x.pueue_group ≠ some g) :
    ∃ db', manage_running_cases statusOf killOf now delta db = some db'
      ∧ (get_case_by_id db' c.case_id).map (·.status) = some "failed"
      ∧ ∃ r', get_gpu_resource db' g = some r'
          ∧ r'.status = (if killOf tid then "available" else "zombie")
          ∧ (killOf tid = false → r'.assigned_case_id = some c.case_id) := by
  have hcs : c ∈ get_cases_by_status db "running" :=
    List.mem_filter.mpr ⟨hc, by simp [hstat]⟩
  have hsub : List.Sublist (get_cases_by_status db "running") db.cases :=
    List.filter_sublist _
  have hsnnd : ((get_cases_by_status db "running").map (·.case_id)).Nodup :=
    hnodup.sublist (hsub.map (·.case_id))
  obtain ⟨l1, l2, hsplit⟩ := List.append_of_mem hcs
  have hmid : c.case_id ∉ l1.map (·.case_id) ++ l2.map (·.case_id) := by
    have := hsnnd
    rw [hsplit, List.map_append, List.map_cons] at this
    exact (List.nodup_cons.mp (List.nodup_middle.mp this)).1
  have hsnapmem : ∀ x, x ∈ l1 ∨ x ∈ l2 → x ∈ db.cases ∧ x.status = "running" := by
    intro x hx
    have hxs : x ∈ get_cases_by_status db "running" := by
      rw [hsplit]
      rcases hx with h | h
      · exact List.mem_append.mpr (Or.inl h)
      · exact List.mem_append.mpr (Or.inr (List.mem_cons_of_mem _ h))
    have := List.mem_filter.mp hxs
    exact ⟨this.1, by simpa using this.2⟩
  have hprops : ∀ (l : List Case), (∀ x ∈ l, x ∈ l1 ∨ x ∈ l2) →
      (∀ x ∈ l, x.case_id ≠ c.case_id) →
      ∀ x ∈ l, x.case_id ≠ c.case_id ∧ x.status_updated_at ≠ none ∧
        x.pueue_group ≠ some g := by
    intro l hl hne x hx
    obtain ⟨hxc, hxr⟩ := hsnapmem x (hl x hx)
    exact ⟨hne x hx, hparse x hxc hxr, hexcl x hxc hxr (hne x hx)⟩
  have hL1ne : ∀ x ∈ l1, x.case_id ≠ c.case_id := by
    intro x hx hxe
    exact hmid (List.mem_append.mpr (Or.inl (hxe ▸ List.mem_map_of_mem _ hx)))
  have hL2ne : ∀ x ∈ l2, x.case_id ≠ c.case_id := by
    intro x hx hxe
    exact hmid (List.mem_append.mpr (Or.inr (hxe ▸ List.mem_map_of_mem _ hx)))
  have hL1 := hprops l1 (fun x hx => Or.inl hx) hL1ne
  have hL2 := hprops l2 (fun x hx => Or.inr hx) hL2ne
  obtain ⟨db1, hml1, hc1, hr1⟩ :=
    manageList_frame statusOf killOf now delta c.case_id g r l1 db hL1 hfind
      (Or.inr hra)
  have hlook : get_case_by_id db1 c.case_id = some c := by
    rw [hc1]
    exact find?_key_self (·.case_id) db.cases hnodup c hc
  -- the timed-out step on `c`
  cases hkill : killOf tid with
  | true =>
    have hstep : manageOne statusOf killOf now delta db1 c
        = some (release_gpu_resource
            (update_case_completion db1 c.case_id "failed" now) c.case_id) := by
      simp [manageOne, hupd, htask, htime, hkill]
    have hrow2 : get_case_by_id (release_gpu_resource
        (update_case_completion db1 c.case_id "failed" now) c.case_id) c.case_id
        = some { c with
            status := "failed", progress := 100, completed_at := some now } := by
      rw [get_case_by_id_release, get_case_by_id_update_case_completion_eq,
        hlook]
      rfl
    have hres2 : get_gpu_resource (release_gpu_resource
        (update_case_completion db1 c.case_id "failed" now) c.case_id) g
        = some { r with status := "available", assigned_case_id := none } :=
      get_gpu_resource_release_assigned _ _ _ r hr1 hra
    obtain ⟨db', hml2, hc2, hr2⟩ :=
      manageList_frame statusOf killOf now delta c.case_id g
        { r with status := "available", assigned_case_id := none } l2 _ hL2
        hres2 (Or.inl rfl)
    refine ⟨db', ?_, ?_, ?_⟩
    · rw [manage_running_cases, hsplit,
        manageList_append statusOf killOf now delta l1 (c :: l2) db, hml1]
      simp only [Option.some_bind, manageList, hstep]
      exact hml2
    · rw [hc2, hrow2]
      rfl
    · exact ⟨_, hr2, by simp, by intro h; cases h⟩
  | false =>
    have hstep : manageOne statusOf killOf now delta db1 c
        = some (update_gpu_status
            (update_case_completion db1 c.case_id "failed" now) g "zombie"
            (some c.case_id)) := by
      simp [manageOne, hupd, htask, htime, hkill, hgrp]
    have hrow2 : get_case_by_id (update_gpu_status
        (update_case_completion db1 c.case_id "failed" now) g "zombie"
        (some c.case_id)) c.case_id
        = some { c with
            status := "failed", progress := 100, completed_at := some now } := by
      rw [get_case_by_id_update_gpu_status,
        get_case_by_id_update_case_completion_eq, hlook]
      rfl
    have hres2 : get_gpu_resource (update_gpu_status
        (update_case_completion db1 c.case_id "failed" now) g "zombie"
        (some c.case_id)) g
        = some { r with status := "zombie", assigned_case_id := some c.case_id } :=
      get_gpu_resource_update_gpu_status_eq _ _ _ _ r hr1
    obtain ⟨db', hml2, hc2, hr2⟩ :=
      manageList_frame statusOf killOf now delta c.case_id g
        { r with status := "zombie", assigned_case_id := some c.case_id } l2 _
        hL2 hres2 (Or.inr rfl)
    refine ⟨db', ?_, ?_, ?_⟩
    · rw [manage_running_cases, hsplit,
        manageList_append statusOf killOf now delta l1 (c :: l2) db, hml1]
      simp only [Option.some_bind, manageList, hstep]
      exact hml2
    · rw [hc2, hrow2]
      rfl
    · exact ⟨_, hr2, by simp, fun _ => rfl⟩

/-- Witness for C1: the recovery theorem applied to the concrete store `wdbA`
whose single `submitting` case has orphaned remote task 77. -/
theorem phase_a_recovers_found_submitting_case_witness :
    ((get_case_by_id (recover_stuck_submitting_cases wfindA 0 wdbA)
        wcaseA.case_id).map (fun x => (x.status, x.pueue_task_id))
      = some ("running", some 77))
    ∧ ((get_case_by_id (recover_stuck_submitting_cases wfindA 0 wdbA)
        wcaseA.case_id).map (·.status) ≠ some "failed")
    ∧ (∀ r ∈ wdbA.resources, r.assigned_case_id = some wcaseA.case_id →
        r ∈ (recover_stuck_submitting_cases wfindA 0 wdbA).resources) :=
  phase_a_recovers_found_submitting_case wfindA 0 wdbA wcaseA 77
    (by decide) (by decide) (by decide) rfl

/-- Witness for C3: the timeout theorem applied to the concrete store `wdbB`
(case timed out, kill fails, resource goes zombie). -/
theorem phase_b_timeout_kill_outcomes_witness :
    ∃ db', manage_running_cases (fun _ => WStatus.running) (fun _ => false)
        100 10 wdbB = some db'
      ∧ (get_case_by_id db' wcaseB.case_id).map (·.status) = some "failed"
      ∧ ∃ r', get_gpu_resource db' "gpu_a" = some r'
          ∧ r'.status = (if (fun (_ : Nat) => false) 5 then "available" else "zombie")
          ∧ ((fun (_ : Nat) => false) 5 = false →
              r'.assigned_case_id = some wcaseB.case_id) :=
  phase_b_timeout_kill_outcomes (fun _ => WStatus.running) (fun _ => false)
    100 10 wdbB wcaseB 5 0 "gpu_a"
    { pueue_group := "gpu_a", status := "assigned", assigned_case_id := some 1 }
    (by decide) (by decide) (by decide) rfl rfl (by decide) rfl (by decide)
    rfl (by decide) (by decide)

/-! ## Phase D lemmas -/

theorem lockFor_cases (db : DbState) (cid : Nat) :
    (lockFor db cid).2.cases = db.cases := by
  unfold lockFor
  cases get_gpu_resource_by_case_id db cid with
  | some r => rfl
  | none =>
    unfold find_and_lock_any_available_gpu
    cases minString? (availableGroups db) with
    | none => rfl
    | some g => rfl

theorem get_case_by_id_eq_of_cases_eq (db1 db2 : DbState) (j : Nat)
    (h : db1.cases = db2.cases) :
    get_case_by_id db1 j = get_case_by_id db2 j := by
  unfold get_case_by_id
  rw [h]

theorem release_clears_assignment (db : DbState) (cid : Nat) :
    ∀ r ∈ (release_gpu_resource db cid).resources,
      r.assigned_case_id ≠ some cid := by
  intro r hr
  rcases List.mem_map.mp hr with ⟨x, hx, rfl⟩
  cases hp : (x.assigned_case_id == some cid) with
  | true => simp [hp]
  | false =>
    have hne : x.assigned_case_id ≠ some cid := by simpa using hp
    simpa [hp] using hne

/-- C2 (amended). For every case dispatched in Phase D, if the remote submit
call fails with a transport error (the `unreachable` outcome raised as
`WorkflowSubmissionError`), the catch-all handler marks the case `failed` and
releases its GPU resource — exactly the handling of permanent errors.  The
case is not left in `submitting`; Phase A recovery only ever applies to cases
left in `submitting` by a process crash. -/
theorem submit_unreachable_marks_failed_and_releases
    (submit : Nat → SubmitOutcome) (now : Int) (db db' : DbState) (c : Case)
    (hsub : submit c.case_id = SubmitOutcome.unreachable_error)
    (hstep : processOne submit now db c = some db')
    (hc0 : (get_case_by_id db c.case_id).isSome = true) :
    ((get_case_by_id db' c.case_id).map (·.status) = some "failed")
    ∧ ∀ r ∈ db'.resources, r.assigned_case_id ≠ some c.case_id := by
  rcases hlk : lockFor db c.case_id with ⟨olock, db1⟩
  have hcs : db1.cases = db.cases := by
    have := lockFor_cases db c.case_id
    rw [hlk] at this
    exact this
  unfold processOne at hstep
  cases olock with
  | none => simp [hlk] at hstep
  | some g =>
    simp only [hlk, hsub] at hstep
    injection hstep with hstep
    subst hstep
    constructor
    · rw [get_case_by_id_release, get_case_by_id_update_case_completion_eq,
        get_case_by_id_update_case_status_eq,
        get_case_by_id_update_case_pueue_group_eq,
        get_case_by_id_eq_of_cases_eq db1 db c.case_id hcs]
      cases hx : get_case_by_id db c.case_id with
      | none => rw [hx] at hc0; cases hc0
      | some c0 => rfl
    · exact release_clears_assignment _ _

/-- C2 counterexample: with one `submitted` case, one free GPU, and a submit
call that fails with a transport error (timeout / connection failure), Phase
D leaves the case `failed` — not `submitting` — and its GPU released, so the
claim as stated is false on the code. -/
theorem submit_unreachable_counterexample :
    ((get_case_by_id (process_new_submitted_cases c2submit 0 c2db) 1).map
        (·.status) = some "failed")
    ∧ ((get_case_by_id (process_new_submitted_cases c2submit 0 c2db) 1).map
        (·.status) ≠ some "submitting")
    ∧ ((get_gpu_resource (process_new_submitted_cases c2submit 0 c2db)
        "gpu_a").map (fun r => (r.status, r.assigned_case_id))
      = some ("available", none)) := by
  refine ⟨by decide, by decide, by decide⟩

/-- Witness for the amended C2 at the concrete store `c2db`. -/
theorem submit_unreachable_marks_failed_and_releases_witness :
    ((get_case_by_id c2dbAfter c2case0.case_id).map (·.status) = some "failed")
    ∧ ∀ r ∈ c2dbAfter.resources,
        r.assigned_case_id ≠ some c2case0.case_id :=
  submit_unreachable_marks_failed_and_releases c2submit 0 c2db c2dbAfter
    c2case0 rfl (by decide) (by decide)

/-! ## Invariant 1 (`submitted` ⇒ both NULL): preservation machinery -/

theorem mem_modifyCase_ne (db : DbState) (i : Nat) (f : Case → Case)
    (c : Case) (hc : c ∈ (modifyCase db i f).cases) (hne : c.case_id ≠ i)
    (hf : ∀ x, (f x).case_id = x.case_id) :
    c ∈ db.cases := by
  rcases List.mem_map.mp hc with ⟨x, hx, rfl⟩
  cases h : (x.case_id == i) with
  | true =>
    exfalso
    apply hne
    have hxi : x.case_id = i := by simpa using h
    simp [h, hf x, hxi]
  | false =>
    simpa [h] using hx

theorem SubmittedNullInv_final_status (db0 db1 : DbState) (i : Nat)
    (f : Case → Case)
    (h0 : SubmittedNullInv db0)
    (hsame : ∀ c ∈ db1.cases, c.case_id ≠ i → c ∈ db0.cases)
    (hfs : ∀ c, (f c).status ≠ "submitted") :
    SubmittedNullInv (modifyCase db1 i f) := by
  intro c hc hcs
  rcases List.mem_map.mp hc with ⟨x, hx, rfl⟩
  cases h : (x.case_id == i) with
  | true =>
    simp only [h, if_true] at hcs
    exact absurd hcs (hfs x)
  | false =>
    simp only [h, Bool.false_eq_true, if_false] at hcs ⊢
    have hxne : x.case_id ≠ i := by simpa using h
    exact h0 x (hsame x hx hxne) hcs

theorem SubmittedNullInv_modifyCase (db : DbState) (i : Nat) (f : Case → Case)
    (h : SubmittedNullInv db) (hfs : ∀ c, (f c).status ≠ "submitted") :
    SubmittedNullInv (modifyCase db i f) :=
  SubmittedNullInv_final_status db db i f h (fun _ hc _ => hc) hfs

theorem SubmittedNullInv_resources_op (db : DbState) (p : GpuResource → Bool)
    (f : GpuResource → GpuResource) (h : SubmittedNullInv db) :
    SubmittedNullInv (modifyResourcesBy db p f) :=
  h

theorem SubmittedNullInv_recoverOne (find : String → FindLabelResult)
    (now : Int) (db : DbState) (c : Case) (h : SubmittedNullInv db) :
    SubmittedNullInv (recoverOne find now db c) := by
  cases hf : find ("mqic_case_" ++ toString c.case_id) with
  | found remote_task =>
    cases remote_task with
    | some t =>
      cases ht : t.id with
      | some task_id =>
        simp only [recoverOne, hf, ht]
        rw [update_case_status]
        refine SubmittedNullInv_final_status db _ c.case_id _ h ?_
          (fun x => (by decide : ("running" : String) ≠ "submitted"))
        intro x hx hne
        exact mem_modifyCase_ne db c.case_id _ x hx hne (fun _ => rfl)
      | none =>
        simp only [recoverOne, hf, ht]
        rw [update_case_completion]
        exact SubmittedNullInv_resources_op _ _ _
          (SubmittedNullInv_modifyCase db c.case_id _ h
            (fun x => (by decide : ("failed" : String) ≠ "submitted")))
    | none =>
      simp only [recoverOne, hf]
      rw [update_case_completion]
      exact SubmittedNullInv_resources_op _ _ _
        (SubmittedNullInv_modifyCase db c.case_id _ h
        (fun x => (by decide : ("failed" : String) ≠ "submitted")))
  | not_found =>
    simp only [recoverOne, hf]
    rw [update_case_completion]
    exact SubmittedNullInv_resources_op _ _ _
      (SubmittedNullInv_modifyCase db c.case_id _ h
        (fun x => (by decide : ("failed" : String) ≠ "submitted")))
  | unreachable =>
    simp only [recoverOne, hf]
    exact h

theorem SubmittedNullInv_foldA (find : String → FindLabelResult) (now : Int)
    (cs : List Case) :
    ∀ db : DbState, SubmittedNullInv db →
      SubmittedNullInv (cs.foldl (recoverOne find now) db) := by
  induction cs with
  | nil => exact fun db h => h
  | cons c cs ih =>
    intro db h
    exact ih _ (SubmittedNullInv_recoverOne find now db c h)

theorem SubmittedNullInv_manageOne (statusOf : Nat → WStatus)
    (killOf : Nat → Bool) (now delta : Int) (db : DbState) (c : Case)
    (db' : DbState) (h : SubmittedNullInv db)
    (hstep : manageOne statusOf killOf now delta db c = some db') :
    SubmittedNullInv db' := by
  have hfail : SubmittedNullInv
      (update_case_completion db c.case_id "failed" now) := by
    rw [update_case_completion]
    exact SubmittedNullInv_modifyCase db c.case_id _ h
      (fun x => (by decide : ("failed" : String) ≠ "submitted"))
  cases hts : c.status_updated_at with
  | none => simp [manageOne, hts] at hstep
  | some updatedAt =>
    cases htask : c.pueue_task_id with
    | none =>
      simp only [manageOne, hts, htask] at hstep
      injection hstep with he
      subst he
      exact SubmittedNullInv_resources_op _ _ _ hfail
    | some task_id =>
      by_cases htime : now - updatedAt > delta
      · cases hkill : killOf task_id with
        | true =>
          simp only [manageOne, hts, htask, if_pos htime, hkill, if_true]
            at hstep
          injection hstep with he
          subst he
          exact SubmittedNullInv_resources_op _ _ _ hfail
        | false =>
          cases hgrp : c.pueue_group with
          | some gz =>
            simp only [manageOne, hts, htask, if_pos htime, hkill,
              Bool.false_eq_true, if_false, hgrp] at hstep
            injection hstep with he
            subst he
            exact SubmittedNullInv_resources_op _ _ _ hfail
          | none =>
            simp only [manageOne, hts, htask, if_pos htime, hkill,
              Bool.false_eq_true, if_false, hgrp] at hstep
            injection hstep with he
            subst he
            exact hfail
      · cases hst : statusOf task_id with
        | success =>
          simp only [manageOne, hts, htask, if_neg htime, hst] at hstep
          injection hstep with he
          subst he
          rw [update_case_completion]
          exact SubmittedNullInv_modifyCase _ c.case_id _
            (SubmittedNullInv_resources_op _ _ _ h)
            (fun x => (by decide : ("completed" : String) ≠ "submitted"))
        | failure =>
          simp only [manageOne, hts, htask, if_neg htime, hst] at hstep
          injection hstep with he
          subst he
          rw [update_case_completion]
          exact SubmittedNullInv_modifyCase _ c.case_id _
            (SubmittedNullInv_resources_op _ _ _ h)
            (fun x => (by decide : ("failed" : String) ≠ "submitted"))
        | not_found =>
          simp only [manageOne, hts, htask, if_neg htime, hst] at hstep
          injection hstep with he
          subst he
          rw [update_case_completion]
          exact SubmittedNullInv_modifyCase _ c.case_id _
            (SubmittedNullInv_resources_op _ _ _ h)
            (fun x => (by decide : ("failed" : String) ≠ "submitted"))
        | running =>
          simp only [manageOne, hts, htask, if_neg htime, hst] at hstep
          injection hstep with he
          subst he
          exact h
        | unreachable =>
          simp only [manageOne, hts, htask, if_neg htime, hst] at hstep
          injection hstep with he
          subst he
          exact h

theorem SubmittedNullInv_manageList (statusOf : Nat → WStatus)
    (killOf : Nat → Bool) (now delta : Int) (cs : List Case) :
    ∀ db db' : DbState, SubmittedNullInv db →
      manageList statusOf killOf now delta db cs = some db' →
      SubmittedNullInv db' := by
  induction cs with
  | nil =>
    intro db db' h hml
    injection hml with he
    subst he
    exact h
  | cons c cs ih =>
    intro db db' h hml
    cases hp : manageOne statusOf killOf now delta db c with
    | none => rw [manageList, hp] at hml; cases hml
    | some db1 =>
      rw [manageList, hp] at hml
      exact ih db1 db' (SubmittedNullInv_manageOne _ _ _ _ db c db1 h hp) hml

theorem SubmittedNullInv_zombieOne (killOf : Nat → Bool) (db : DbState)
    (r : GpuResource) (h : SubmittedNullInv db) :
    SubmittedNullInv (zombieOne killOf db r) := by
  cases ha : r.assigned_case_id with
  | none => simp only [zombieOne, ha]; exact h
  | some cid =>
    cases hz : get_case_by_id db cid with
    | none => simp only [zombieOne, ha, hz]; exact h
    | some zc =>
      cases htk : zc.pueue_task_id with
      | none => simp only [zombieOne, ha, hz, htk]; exact h
      | some task_id =>
        by_cases h0 : (task_id == 0) = true
        · simp only [zombieOne, ha, hz, htk, h0, if_true]; exact h
        · by_cases hkill : killOf task_id = true
          · simp [zombieOne, ha, hz, htk, h0, hkill]; exact h
          · simp [zombieOne, ha, hz, htk, h0, hkill]; exact h

theorem SubmittedNullInv_foldZ (killOf : Nat → Bool) (rs : List GpuResource) :
    ∀ db : DbState, SubmittedNullInv db →
      SubmittedNullInv (rs.foldl (zombieOne killOf) db) := by
  induction rs with
  | nil => exact fun db h => h
  | cons r rs ih =>
    intro db h
    exact ih _ (SubmittedNullInv_zombieOne killOf db r h)

theorem SubmittedNullInv_processOne (submit : Nat → SubmitOutcome) (now : Int)
    (db : DbState) (c : Case) (db' : DbState) (h : SubmittedNullInv db)
    (hstep : processOne submit now db c = some db') :
    SubmittedNullInv db' := by
  rcases hlk : lockFor db c.case_id with ⟨olock, db1⟩
  have hcs : db1.cases = db.cases := by
    have := lockFor_cases db c.case_id
    rw [hlk] at this
    exact this
  have h1 : SubmittedNullInv db1 := by
    intro x hx
    rw [hcs] at hx
    exact h x hx
  unfold processOne at hstep
  cases olock with
  | none => simp [hlk] at hstep
  | some g =>
    simp only [hlk] at hstep
    have hsame3 : ∀ x ∈ (update_case_status
        (update_case_pueue_group db1 c.case_id g now) c.case_id
        "submitting" 10).cases, x.case_id ≠ c.case_id → x ∈ db1.cases := by
      intro x hx hne
      rw [update_case_status] at hx
      have h2 := mem_modifyCase_ne _ c.case_id _ x hx hne (fun _ => rfl)
      rw [update_case_pueue_group] at h2
      exact mem_modifyCase_ne _ c.case_id _ x h2 hne (fun _ => rfl)
    cases hsub : submit c.case_id with
    | ok task_id =>
      simp only [hsub] at hstep
      injection hstep with he
      subst he
      rw [update_case_status]
      refine SubmittedNullInv_final_status db1 _ c.case_id _ h1 ?_
        (fun x => (by decide : ("running" : String) ≠ "submitted"))
      intro x hx hne
      rw [update_case_pueue_task_id] at hx
      exact hsame3 x (mem_modifyCase_ne _ c.case_id _ x hx hne (fun _ => rfl))
        hne
    | parse_failed =>
      simp only [hsub] at hstep
      injection hstep with he
      subst he
      rw [update_case_completion]
      exact SubmittedNullInv_resources_op _ _ _
        (SubmittedNullInv_final_status db1 _ c.case_id _ h1 hsame3
          (fun x => (by decide : ("failed" : String) ≠ "submitted")))
    | unreachable_error =>
      simp only [hsub] at hstep
      injection hstep with he
      subst he
      rw [update_case_completion]
      exact SubmittedNullInv_resources_op _ _ _
        (SubmittedNullInv_final_status db1 _ c.case_id _ h1 hsame3
          (fun x => (by decide : ("failed" : String) ≠ "submitted")))
    | permanent_error =>
      simp only [hsub] at hstep
      injection hstep with he
      subst he
      rw [update_case_completion]
      exact SubmittedNullInv_resources_op _ _ _
        (SubmittedNullInv_final_status db1 _ c.case_id _ h1 hsame3
          (fun x => (by decide : ("failed" : String) ≠ "submitted")))

theorem SubmittedNullInv_processList (submit : Nat → SubmitOutcome) (now : Int)
    (cs : List Case) :
    ∀ db : DbState, SubmittedNullInv db →
      SubmittedNullInv (processList submit now db cs) := by
  induction cs with
  | nil => exact fun db h => h
  | cons c cs ih =>
    intro db h
    cases hp : processOne submit now db c with
    | none => simpa [processList, hp] using h
    | some db1 =>
      have h1 := SubmittedNullInv_processOne submit now db c db1 h hp
      simpa [processList, hp] using ih db1 h1

theorem SubmittedNullInv_add_case (db : DbState) (case_path : String)
    (now : Int) (h : SubmittedNullInv db) :
    SubmittedNullInv (add_case db case_path now).2 := by
  intro c hc hcs
  rcases List.mem_append.mp hc with hold | hnew
  · exact h c hold hcs
  · rcases List.mem_singleton.mp hnew with rfl
    exact ⟨rfl, rfl⟩

/-- C4 (amended). A case newly created by the scanner enters `submitted` with
`pueue_group = NULL`, `pueue_task_id = NULL` and no resource bound, and the
invariant "every `submitted` case has `pueue_group = NULL ∧ pueue_task_id =
NULL`" is preserved by `add_case` and by each complete phase of the tick
(Phase A, B, C and D).  It does not hold after *every* individual commit:
within Phase D, between the `update_case_pueue_group` commit and the
`submitting(10)` status commit, the dispatched case is still `submitted` with
its group already set (see the counterexample). -/
theorem submitted_null_fields_invariant
    (find : String → FindLabelResult) (statusOf : Nat → WStatus)
    (killOf : Nat → Bool) (submit : Nat → SubmitOutcome)
    (now delta : Int) (db : DbState) (case_path : String)
    (h : SubmittedNullInv db) :
    (((add_case db case_path now).2.cases.getLast?).map
        (fun c => (c.status, c.pueue_group, c.pueue_task_id))
      = some ("submitted", none, none))
    ∧ ((add_case db case_path now).2.resources = db.resources)
    ∧ SubmittedNullInv (add_case db case_path now).2
    ∧ SubmittedNullInv (recover_stuck_submitting_cases find now db)
    ∧ (∀ db', manage_running_cases statusOf killOf now delta db = some db' →
        SubmittedNullInv db')
    ∧ SubmittedNullInv (manage_zombie_resources killOf db)
    ∧ SubmittedNullInv (process_new_submitted_cases submit now db) := by
  refine ⟨?_, rfl, SubmittedNullInv_add_case db case_path now h,
    SubmittedNullInv_foldA find now _ db h,
    fun db' hml =>
      SubmittedNullInv_manageList statusOf killOf now delta _ db db' h hml,
    SubmittedNullInv_foldZ killOf _ db h,
    SubmittedNullInv_processList submit now _ db h⟩
  rw [add_case]
  rw [List.getLast?_concat]
  rfl

/-- C4 counterexample: starting from a store built by `add_gpu_resource` and
`add_case` (one free group, one scanner-created case), the state committed by
Phase D's `update_case_pueue_group` call — the second commit of the phase —
holds a case that is still in status `submitted` with `pueue_group =
"gpu_a" ≠ NULL`, so the claimed invariant is violated after that committed
transition. -/
theorem submitted_invariant_transient_violation_counterexample :
    ((phaseDCommits c4submit 0 c4db).get? 1).map
        (fun s => (get_case_by_id s 1).map (fun x => (x.status, x.pueue_group)))
      = some (some ("submitted", some "gpu_a")) := by
  decide

/-! ## Claim C5: `status_updated_at` in the checked-in `db_manager.py` -/

theorem map_field_invariant {α β : Type} (proj : α → β) (g : α → α)
    (hg : ∀ a, proj (g a) = proj a) :
    ∀ l : List α, (l.map g).map proj = l.map proj := by
  intro l
  induction l with
  | nil => rfl
  | cons a l ih => simp [hg a, ih]

/-- C5 (code bug).  In the checked-in `db_manager.py` the `cases` schema has
no `status_updated_at` column and none of `update_case_status`,
`update_case_pueue_task_id`, `update_case_completion` writes one
(`update_case_pueue_group` does not exist there at all), yet
`manage_running_cases` reads `case["status_updated_at"]` for every running
case.  The claim — each updater stamps `status_updated_at`, so Phase B reads
a non-null value — matches the spec and the callers, and the stale store
module contradicts it: here the schema/SET column lists are taken verbatim
from the source, and the three source-derived updaters are shown to leave
the `status_updated_at` field of every row unchanged. -/
theorem status_updated_at_never_stamped_by_src_updaters :
    ("status_updated_at" ∉ src_cases_columns)
    ∧ ("status_updated_at" ∉ src_update_case_status_set_columns)
    ∧ ("status_updated_at" ∉ src_update_case_pueue_task_id_set_columns)
    ∧ ("status_updated_at" ∉ src_update_case_completion_set_columns)
    ∧ ("status_updated_at" ∈ manage_running_cases_read_columns)
    ∧ (∀ db i s p, ((update_case_status db i s p).cases.map
        (·.status_updated_at)) = db.cases.map (·.status_updated_at))
    ∧ (∀ db i t, ((update_case_pueue_task_id db i t).cases.map
        (·.status_updated_at)) = db.cases.map (·.status_updated_at))
    ∧ (∀ db i s now, ((update_case_completion db i s now).cases.map
        (·.status_updated_at)) = db.cases.map (·.status_updated_at)) := by
  refine ⟨by decide, by decide, by decide, by decide, by decide, ?_, ?_, ?_⟩
  · intro db i s p
    exact map_field_invariant (·.status_updated_at)
      (fun c => if c.case_id == i
        then { c with status := s, progress := p } else c)
      (fun c => by by_cases h : (c.case_id == i) = true <;> simp [h]) db.cases
  · intro db i t
    exact map_field_invariant (·.status_updated_at)
      (fun c => if c.case_id == i
        then { c with pueue_task_id := some t } else c)
      (fun c => by by_cases h : (c.case_id == i) = true <;> simp [h]) db.cases
  · intro db i s now
    exact map_field_invariant (·.status_updated_at)
      (fun c => if c.case_id == i
        then { c with status := s, progress := 100, completed_at := some now }
        else c)
      (fun c => by by_cases h : (c.case_id == i) = true <;> simp [h]) db.cases

/-! ## Claim C8: `get_workflow_status` classification -/

/-- C8. `get_workflow_status` always returns one of the five classified
results: transport problems (command timeout, non-zero ssh exit) map to
`unreachable` — never to `failure`; undecodable JSON maps to `failure`; a
task missing from the listing is `not_found`; the daemon's
`Queued`/`Running`/`Paused` states all map to `running`; `Done` splits on
`result == "success"`. -/
theorem get_workflow_status_classification
    (tid : Nat) (sd : StatusData) (k : String) (info : TaskInfo) :
    (get_workflow_status PueueStatusOutcome.timeout_expired tid
      = WStatus.unreachable)
    ∧ (get_workflow_status PueueStatusOutcome.called_process_error tid
      = WStatus.unreachable)
    ∧ (get_workflow_status PueueStatusOutcome.timeout_expired tid
      ≠ WStatus.failure)
    ∧ (get_workflow_status PueueStatusOutcome.called_process_error tid
      ≠ WStatus.failure)
    ∧ (get_workflow_status (PueueStatusOutcome.output none) tid
      = WStatus.failure)
    ∧ (∀ o : PueueStatusOutcome,
        get_workflow_status o tid = WStatus.success
        ∨ get_workflow_status o tid = WStatus.failure
        ∨ get_workflow_status o tid = WStatus.running
        ∨ get_workflow_status o tid = WStatus.not_found
        ∨ get_workflow_status o tid = WStatus.unreachable)
    ∧ (sd.tasks.find? (fun kv => kv.1 == toString tid) = none →
        get_workflow_status (PueueStatusOutcome.output (some sd)) tid
          = WStatus.not_found)
    ∧ (sd.tasks.find? (fun kv => kv.1 == toString tid) = some (k, info) →
        (info.status = some "Queued" ∨ info.status = some "Running" ∨
          info.status = some "Paused") →
        get_workflow_status (PueueStatusOutcome.output (some sd)) tid
          = WStatus.running)
    ∧ (sd.tasks.find? (fun kv => kv.1 == toString tid) = some (k, info) →
        info.status = some "Done" → info.result = some "success" →
        get_workflow_status (PueueStatusOutcome.output (some sd)) tid
          = WStatus.success)
    ∧ (sd.tasks.find? (fun kv => kv.1 == toString tid) = some (k, info) →
        info.status = some "Done" → info.result ≠ some "success" →
        get_workflow_status (PueueStatusOutcome.output (some sd)) tid
          = WStatus.failure) := by
  refine ⟨rfl, rfl, fun h => WStatus.noConfusion h,
    fun h => WStatus.noConfusion h, rfl, ?_, ?_, ?_, ?_, ?_⟩
  · intro o
    cases ho : get_workflow_status o tid <;> simp
  · intro hf
    simp [get_workflow_status, hf]
  · intro hf hst
    rcases hst with h | h | h <;> simp [get_workflow_status, hf, h]
  · intro hf hst hres
    simp [get_workflow_status, hf, hst, hres]
  · intro hf hst hres
    have hres' : (info.result == some "success") = false := by
      simpa using hres
    simp [get_workflow_status, hf, hst, hres']

/-- Witness for C8 at a concrete daemon listing: a `Queued` task numbered 5
classifies as `running`, and a timeout classifies as `unreachable`. -/
theorem get_workflow_status_classification_witness :
    (get_workflow_status (PueueStatusOutcome.output (some
        { tasks := [("5", { status := some "Queued", result := none })] })) 5
      = WStatus.running)
    ∧ (get_workflow_status PueueStatusOutcome.timeout_expired 5
      = WStatus.unreachable) := by
  have h := get_workflow_status_classification 5
    { tasks := [("5", { status := some "Queued", result := none })] } "5"
    { status := some "Queued", result := none }
  exact ⟨h.2.2.2.2.2.2.2.1 (by decide) (Or.inl rfl), h.1⟩

/-! ## Claim C10: `update_gpu_status` frame effect -/

/-- C10. `update_gpu_status(pueue_group, status, case_id)` always overwrites
`assigned_case_id` with the `case_id` argument (whose Python default is
`None`) while setting the status: whatever the prior state of the row, every
resulting row of the targeted group carries exactly the supplied status and
assigned case — so a call without an explicit `case_id` silently erases any
existing binding. -/
theorem update_gpu_status_overwrites_assignment
    (db : DbState) (g s : String) (cid : Option Nat) (r' : GpuResource)
    (hr' : r' ∈ (update_gpu_status db g s cid).resources)
    (hg : r'.pueue_group = g) :
    r'.status = s ∧ r'.assigned_case_id = cid := by
  rcases List.mem_map.mp hr' with ⟨x, hx, rfl⟩
  cases hp : (x.pueue_group == g) with
  | true => simp [hp]
  | false =>
    exfalso
    have hne : x.pueue_group ≠ g := by simpa using hp
    apply hne
    simpa [hp] using hg

/-- Witness for C10: updating `gpu_a` (previously `assigned` to case 1)
without a case id leaves it with the new status and a NULL assignment. -/
theorem update_gpu_status_overwrites_assignment_witness :
    ({ pueue_group := "gpu_a", status := "available", assigned_case_id := none }
      : GpuResource).status = "available"
    ∧ ({ pueue_group := "gpu_a", status := "available", assigned_case_id := none }
      : GpuResource).assigned_case_id = (none : Option Nat) :=
  update_gpu_status_overwrites_assignment wdbB "gpu_a" "available" none
    { pueue_group := "gpu_a", status := "available", assigned_case_id := none }
    (by decide) (by decide)

/-! ## Claim C9: the stable-directory scanner -/

theorem find?_filter_key {β : Type} (l : List (String × β)) (path q : String)
    (hq : q ≠ path) :
    (l.filter (fun e => e.1 != path)).find? (fun e => e.1 == q)
      = l.find? (fun e => e.1 == q) := by
  induction l with
  | nil => rfl
  | cons e ts ih =>
    by_cases hk : e.1 = path
    · have h1 : (e.1 != path) = false := by simp [hk]
      have h2 : (e.1 == q) = false := by
        rw [hk]
        exact beq_eq_false_iff_ne.mpr (fun h => hq h.symm)
      simp [List.filter_cons, h1, List.find?_cons, h2, ih]
    · have h1 : (e.1 != path) = true := by simp [hk]
      by_cases hq2 : e.1 = q
      · have h2 : (e.1 == q) = true := by simp [hq2]
        simp [List.filter_cons, h1, List.find?_cons, h2]
      · have h2 : (e.1 == q) = false := beq_eq_false_iff_ne.mpr hq2
        simp [List.filter_cons, h1, List.find?_cons, h2, ih]

theorem lookupTimer_reset (timers : List (String × Int)) (path q : String)
    (fresh : Int) :
    lookupTimer (reset_timer timers path fresh) q
      = if q = path then some fresh else lookupTimer timers q := by
  by_cases hq : q = path
  · subst hq
    rw [lookupTimer, reset_timer, List.find?_append]
    have h1 : (timers.filter (fun e => e.1 != q)).find? (fun e => e.1 == q)
        = none := by
      rw [List.find?_eq_none]
      intro e he
      have := List.of_mem_filter he
      simpa using this
    rw [h1]
    simp [List.find?]
  · rw [lookupTimer, reset_timer, List.find?_append,
      find?_filter_key timers path q hq]
    have h2 : ([((path : String), fresh)].find? (fun e => e.1 == q)) = none := by
      have : (path == q) = false := beq_eq_false_iff_ne.mpr (fun h => hq h.symm)
      simp [List.find?, this]
    rw [h2]
    simp [lookupTimer, hq]

/-- C9 counterexample: when the timer callback's `add_case` call fails, the
handler logs and swallows the error — zero retries are scheduled, contrary
to the claimed "single bounded retry" (the watcher still does not crash). -/
theorem process_directory_no_retry_counterexample :
    (process_directory true none AddCaseResult.error
      = { addAttempts := 1, added := false, retriesScheduled := 0,
          raised := false })
    ∧ (process_directory true none AddCaseResult.error).retriesScheduled ≠ 1 :=
  ⟨rfl, by decide⟩

/-- C9 (amended). Each filesystem event resets the affected directory's
quiescence timer (`_reset_timer` replaces exactly that directory's pending
timer and leaves the others); when the timer fires, `_process_directory`
attempts the add at most once, and only if the directory still exists and no
case with that path is already stored; an `add_case` error is caught and
logged — the watcher does not crash — but no retry is scheduled. -/
theorem scanner_timer_and_process_directory_behaviour
    (dirExists : Bool) (existing : Option Case) (addResult : AddCaseResult)
    (timers : List (String × Int)) (path q : String) (fresh : Int) :
    ((process_directory dirExists existing addResult).raised = false)
    ∧ ((process_directory dirExists existing addResult).retriesScheduled = 0)
    ∧ ((process_directory dirExists existing addResult).addAttempts
        = (if dirExists && existing.isNone then 1 else 0))
    ∧ ((process_directory dirExists existing addResult).added
        = (dirExists && existing.isNone && addResult.isOk))
    ∧ (lookupTimer (reset_timer timers path fresh) q
        = (if q = path then some fresh else lookupTimer timers q)) := by
  refine ⟨?_, ?_, ?_, ?_, lookupTimer_reset timers path q fresh⟩
  · cases dirExists <;> cases existing <;> cases addResult <;> rfl
  · cases dirExists <;> cases existing <;> cases addResult <;> rfl
  · cases dirExists <;> cases existing <;> cases addResult <;> rfl
  · cases dirExists <;> cases existing <;> cases addResult <;> rfl

/-- Witness for the amended C4 at the empty store. -/
theorem submitted_null_fields_invariant_witness :
    (((add_case emptyDb "/w/c1" 0).2.cases.getLast?).map
        (fun c => (c.status, c.pueue_group, c.pueue_task_id))
      = some ("submitted", none, none))
    ∧ ((add_case emptyDb "/w/c1" 0).2.resources = emptyDb.resources)
    ∧ SubmittedNullInv (add_case emptyDb "/w/c1" 0).2
    ∧ SubmittedNullInv (recover_stuck_submitting_cases wfindA 0 emptyDb)
    ∧ (∀ db', manage_running_cases (fun _ => WStatus.running)
        (fun _ => false) 0 0 emptyDb = some db' → SubmittedNullInv db')
    ∧ SubmittedNullInv (manage_zombie_resources (fun _ => false) emptyDb)
    ∧ SubmittedNullInv (process_new_submitted_cases c4submit 0 emptyDb) :=
  submitted_null_fields_invariant wfindA (fun _ => WStatus.running)
    (fun _ => false) c4submit 0 0 emptyDb "/w/c1"
    (fun c hc => absurd hc (List.not_mem_nil c))

/-! ## Claim C6: the submit request and the acknowledgement parse -/

theorem takeWhile_all {α : Type} (p : α → Bool) :
    ∀ l : List α, (∀ a ∈ l, p a = true) → l.takeWhile p = l := by
  intro l
  induction l with
  | nil => intro _; rfl
  | cons a l ih =>
    intro h
    have ha := h a (List.mem_cons_self _ _)
    simp [List.takeWhile_cons, ha,
      ih (fun x hx => h x (List.mem_cons_of_mem _ hx))]

theorem mem_takeWhile {α : Type} (p : α → Bool) :
    ∀ l : List α, ∀ a ∈ l.takeWhile p, p a = true := by
  intro l
  induction l with
  | nil => intro a ha; cases ha
  | cons b l ih =>
    intro a ha
    rw [List.takeWhile_cons] at ha
    by_cases hb : p b = true
    · rw [if_pos hb] at ha
      rcases List.mem_cons.mp ha with rfl | h
      · exact hb
      · exact ih a h
    · rw [if_neg hb] at ha
      cases ha

theorem takeWhile_append_not {α : Type} (p : α → Bool) (l1 : List α) (x : α)
    (r : List α) (h1 : ∀ a ∈ l1, p a = true) (hx : p x = false) :
    (l1 ++ x :: r).takeWhile p = l1 := by
  induction l1 with
  | nil => simp [List.takeWhile_cons, hx]
  | cons a l1 ih =>
    have ha := h1 a (List.mem_cons_self _ _)
    simp [List.takeWhile_cons, ha,
      ih (fun y hy => h1 y (List.mem_cons_of_mem _ hy))]

theorem dropWhile_append_not {α : Type} (p : α → Bool) (l1 : List α) (x : α)
    (r : List α) (h1 : ∀ a ∈ l1, p a = true) (hx : p x = false) :
    (l1 ++ x :: r).dropWhile p = x :: r := by
  induction l1 with
  | nil => simp [List.dropWhile_cons, hx]
  | cons a l1 ih =>
    have ha := h1 a (List.mem_cons_self _ _)
    simp [List.dropWhile_cons, ha,
      ih (fun y hy => h1 y (List.mem_cons_of_mem _ hy))]

theorem basename_idem (p : String) : basename (basename p) = basename p := by
  unfold basename
  congr 1
  rw [List.reverse_reverse]
  exact congrArg List.reverse
    (takeWhile_all _ _ (mem_takeWhile (fun c => c != '/') _))

theorem matchIdAt_digits (d : Char) (ds rest : List Char)
    (hds : ∀ ch ∈ d :: ds, ch.isDigit = true) :
    matchIdAt ('(' :: 'i' :: 'd' :: ':' :: ' ' :: d :: (ds ++ ')' :: rest))
      = some (digitsVal (d :: ds)) := by
  have htake : List.takeWhile Char.isDigit (d :: (ds ++ ')' :: rest))
      = d :: ds := by
    rw [← List.cons_append]
    exact takeWhile_append_not _ _ _ _ hds (by decide)
  have hdrop : List.dropWhile Char.isDigit (d :: (ds ++ ')' :: rest))
      = ')' :: rest := by
    rw [← List.cons_append]
    exact dropWhile_append_not _ _ _ _ hds (by decide)
  simp only [matchIdAt, idTagRest]
  rw [htake, hdrop]
  rfl

theorem scanForId_cons_match (c : Char) (cs : List Char) (n : Nat)
    (h : matchIdAt (c :: cs) = some n) : scanForId (c :: cs) = some n := by
  simp [scanForId, h]

/-- C6. For every submission, the (spec-modelled, label-attaching)
`submit_workflow` builds the enqueue request with the label
`"mqic_case_<case_id>"` under the requested group, the case lands at
`remote_base_dir/<basename(case_path)>` and the remote command is
`cd <remote_path> && <remote_command>`; the value returned to the caller is
the integer `N` parsed from the daemon's `"(id: N)"` acknowledgement line
(`_parse_pueue_add_output` from the checked-in source), and `None` when the
pattern is absent. -/
theorem submit_workflow_request_and_ack_parse
    (cfg : HpcConfig) (case_id : Nat) (case_path pueue_group : String) :
    ((submit_workflow cfg case_id case_path pueue_group).label
      = "mqic_case_" ++ toString case_id)
    ∧ ((submit_workflow cfg case_id case_path pueue_group).pueue_group
      = pueue_group)
    ∧ ((submit_workflow cfg case_id case_path pueue_group).remote_path
      = cfg.remote_base_dir ++ "/" ++ basename case_path)
    ∧ ((submit_workflow cfg case_id case_path pueue_group).remote_command
      = "cd " ++ (cfg.remote_base_dir ++ "/" ++ basename case_path)
        ++ " && " ++ cfg.remote_command)
    ∧ (∀ d : Char, ∀ ds : List Char, (∀ ch ∈ d :: ds, ch.isDigit = true) →
        submit_workflow_result ⟨"New task added ".data ++
          ('(' :: 'i' :: 'd' :: ':' :: ' ' :: d :: (ds ++ ')' :: ['.']))⟩
          = some (digitsVal (d :: ds)))
    ∧ (submit_workflow_result "New task added (id: 123)." = some 123)
    ∧ (submit_workflow_result "New task added." = none) := by
  refine ⟨rfl, rfl, ?_, ?_, ?_, by decide, by decide⟩
  · show remotePath cfg case_path = _
    rw [remotePath, basename_idem]
  · show "cd " ++ remotePath cfg case_path ++ " && " ++ cfg.remote_command = _
    rw [remotePath, basename_idem]
  · intro d ds hds
    show scanForId ("New task added ".data ++
      ('(' :: 'i' :: 'd' :: ':' :: ' ' :: d :: (ds ++ ')' :: ['.'])))
      = some (digitsVal (d :: ds))
    have hpre : scanForId ("New task added ".data ++
        ('(' :: 'i' :: 'd' :: ':' :: ' ' :: d :: (ds ++ ')' :: ['.'])))
        = scanForId ('(' :: 'i' :: 'd' :: ':' :: ' ' :: d :: (ds ++ ')' :: ['.'])) := rfl
    rw [hpre]
    exact scanForId_cons_match _ _ _ (matchIdAt_digits d ds ['.'] hds)

/-- Witness for C6 at a concrete configuration and acknowledgement. -/
theorem submit_workflow_request_and_ack_parse_witness :
    ((submit_workflow { remote_base_dir := "/remote", remote_command := "python sim.py" }
        4 "/w/c1" "gpu_a").label = "mqic_case_4")
    ∧ (submit_workflow_result ⟨"New task added ".data ++
        ('(' :: 'i' :: 'd' :: ':' :: ' ' :: '1' :: (['2', '3'] ++ ')' :: ['.']))⟩
      = some (digitsVal ['1', '2', '3'])) := by
  have h := submit_workflow_request_and_ack_parse
    { remote_base_dir := "/remote", remote_command := "python sim.py" }
    4 "/w/c1" "gpu_a"
  exact ⟨h.1, h.2.2.2.2.1 '1' ['2', '3'] (by decide)⟩

/-! ## Claim C7: atomicity of the GPU lock -/

theorem foldl_min_mem (g : String) (gs : List String) :
    gs.foldl (fun a b => if b < a then b else a) g ∈ g :: gs := by
  induction gs generalizing g with
  | nil => simp
  | cons b gs ih =>
    simp only [List.foldl_cons]
    by_cases h : b < g
    · rw [if_pos h]
      rcases List.mem_cons.mp (ih b) with h1 | h1
      · exact List.mem_cons.mpr (Or.inr (by rw [h1]; exact List.mem_cons_self b gs))
      · exact List.mem_cons.mpr (Or.inr (List.mem_cons.mpr (Or.inr h1)))
    · rw [if_neg h]
      rcases List.mem_cons.mp (ih g) with h1 | h1
      · exact List.mem_cons.mpr (Or.inl h1)
      · exact List.mem_cons.mpr (Or.inr (List.mem_cons.mpr (Or.inr h1)))

theorem minString?_mem (l : List String) (m : String)
    (h : minString? l = some m) : m ∈ l := by
  cases l with
  | nil => cases h
  | cons g gs =>
    injection h with h
    exact h ▸ foldl_min_mem g gs

theorem groups_map_assign (l : List GpuResource) (g : String) (cid : Nat) :
    (l.map fun r => if r.pueue_group == g
        then { r with status := "assigned", assigned_case_id := some cid }
        else r).map (·.pueue_group)
      = l.map (·.pueue_group) :=
  map_field_invariant (·.pueue_group)
    (fun r => if r.pueue_group == g
      then { r with status := "assigned", assigned_case_id := some cid }
      else r)
    (fun r => by by_cases h : (r.pueue_group == g) = true <;> simp [h]) l

theorem avail_map_assign (l : List GpuResource) (g : String) (cid : Nat) :
    ((l.map fun r => if r.pueue_group == g
        then { r with status := "assigned", assigned_case_id := some cid }
        else r).filter (fun r => r.status == "available")).map (·.pueue_group)
      = ((l.filter (fun r => r.status == "available")).map
          (·.pueue_group)).filter (fun x => x != g) := by
  induction l with
  | nil => rfl
  | cons r l ih =>
    have hassigned :
        ((({ r with status := "assigned", assigned_case_id := some cid }
          : GpuResource)).status == "available") = false := rfl
    by_cases hg : (r.pueue_group == g) = true
    · have hgne : (r.pueue_group != g) = false := by simp [bne, hg]
      by_cases ha : (r.status == "available") = true
      · simp only [List.map_cons, List.filter_cons, hg, if_true, hassigned,
          Bool.false_eq_true, if_false, ha, hgne, ih]
      · simp only [List.map_cons, List.filter_cons, hg, if_true, hassigned,
          Bool.false_eq_true, if_false, ha, ih]
    · have hgne : (r.pueue_group != g) = true := by simp [bne, hg]
      by_cases ha : (r.status == "available") = true
      · simp only [List.map_cons, List.filter_cons, hg, Bool.false_eq_true,
          if_false, ha, if_true, hgne, ih]
      · simp only [List.map_cons, List.filter_cons, hg, Bool.false_eq_true,
          if_false, ha, ih]

theorem availableGroups_nodup (db : DbState)
    (hnd : (db.resources.map (·.pueue_group)).Nodup) :
    (availableGroups db).Nodup :=
  hnd.sublist ((List.filter_sublist _).map _)

theorem length_filter_ne (l : List String) (m : String) (hnd : l.Nodup)
    (hm : m ∈ l) :
    (l.filter (fun x => x != m)).length = l.length - 1 := by
  induction l with
  | nil => cases hm
  | cons a l ih =>
    rcases List.nodup_cons.mp hnd with ⟨hanotin, hndl⟩
    rcases List.mem_cons.mp hm with heq | hml
    · subst heq
      have haa : (m != m) = false := by simp
      rw [List.filter_cons, haa]
      simp only [Bool.false_eq_true, if_false]
      have hall : l.filter (fun x => x != m) = l :=
        List.filter_eq_self.mpr
          (fun x hx => by
            simp only [bne_iff_ne, ne_eq]
            intro hxa
            exact hanotin (hxa ▸ hx))
      rw [hall]
      simp
    · have hne : a ≠ m := fun hx => hanotin (hx ▸ hml)
      have hkeep : (a != m) = true := by simpa using hne
      rw [List.filter_cons, hkeep]
      simp only [if_true, List.length_cons]
      rw [ih hndl hml]
      have : 1 ≤ l.length := List.length_pos.mpr (List.ne_nil_of_mem hml)
      omega

theorem filterMap_id_add_none_length {α : Type} :
    ∀ l : List (Option α),
      (l.filterMap id).length + (l.filter (·.isNone)).length = l.length := by
  intro l
  induction l with
  | nil => rfl
  | cons o l ih =>
    cases o with
    | none =>
      simp only [List.filterMap_cons, id_eq, List.filter_cons,
        Option.isNone_none, if_true, List.length_cons]
      omega
    | some a =>
      simp only [List.filterMap_cons, id_eq, List.filter_cons,
        Option.isNone_some, Bool.false_eq_true, if_false, List.length_cons]
      omega

theorem lockMany_spec (ids : List Nat) :
    ∀ db : DbState, (db.resources.map (·.pueue_group)).Nodup →
      ((lockMany db ids).2.length = ids.length)
      ∧ ((lockMany db ids).2.filterMap id).Nodup
      ∧ (∀ gp ∈ (lockMany db ids).2.filterMap id, gp ∈ availableGroups db)
      ∧ ((lockMany db ids).2.filterMap id).length
          = min ids.length (availableGroups db).length := by
  induction ids with
  | nil =>
    intro db _
    refine ⟨rfl, List.nodup_nil, ?_, by simp [lockMany]⟩
    intro gp hgp
    cases hgp
  | cons cid ids ih =>
    intro db hnd
    cases hmin : minString? (availableGroups db) with
    | none =>
      have hempty : availableGroups db = [] := by
        cases he : availableGroups db with
        | nil => rfl
        | cons x xs => rw [he] at hmin; cases hmin
      have hlock : find_and_lock_any_available_gpu db cid = (none, db) := by
        unfold find_and_lock_any_available_gpu
        rw [hmin]
      obtain ⟨ih1, ih2, ih3, ih4⟩ := ih db hnd
      have hlm : (lockMany db (cid :: ids)).2 = none :: (lockMany db ids).2 := by
        simp [lockMany, hlock]
      rw [hlm]
      refine ⟨by simp [ih1], by simpa using ih2, ?_, ?_⟩
      · intro gp hgp
        exact ih3 gp (by simpa using hgp)
      · simp only [List.filterMap_cons, id_eq]
        rw [ih4, hempty]
        simp
    | some m =>
      have hm : m ∈ availableGroups db := minString?_mem _ _ hmin
      have hlock : find_and_lock_any_available_gpu db cid
          = (some m, modifyResourcesBy db (fun r => r.pueue_group == m)
              (fun r => { r with status := "assigned", assigned_case_id := some cid })) := by
        unfold find_and_lock_any_available_gpu
        rw [hmin]
      have hgroups : (modifyResourcesBy db (fun r => r.pueue_group == m)
          (fun r => { r with status := "assigned", assigned_case_id := some cid })).resources.map
            (·.pueue_group)
          = db.resources.map (·.pueue_group) :=
        groups_map_assign db.resources m cid
      have hnd' := hgroups ▸ hnd
      have havail : availableGroups (modifyResourcesBy db
          (fun r => r.pueue_group == m)
          (fun r => { r with status := "assigned", assigned_case_id := some cid }))
          = (availableGroups db).filter (fun x => x != m) :=
        avail_map_assign db.resources m cid
      have hnda : (availableGroups db).Nodup := availableGroups_nodup db hnd
      obtain ⟨ih1, ih2, ih3, ih4⟩ := ih _ hnd'
      have hlm : (lockMany db (cid :: ids)).2
          = some m :: (lockMany (modifyResourcesBy db
              (fun r => r.pueue_group == m)
              (fun r => { r with status := "assigned", assigned_case_id := some cid })) ids).2 := by
        simp [lockMany, hlock]
      rw [hlm]
      have hrestsub : ∀ gp ∈ (lockMany (modifyResourcesBy db
          (fun r => r.pueue_group == m)
          (fun r => { r with status := "assigned", assigned_case_id := some cid })) ids).2.filterMap id,
          gp ∈ (availableGroups db).filter (fun x => x != m) := by
        intro gp hgp
        rw [← havail]
        exact ih3 gp hgp
      refine ⟨by simp [ih1], ?_, ?_, ?_⟩
      · simp only [List.filterMap_cons, id_eq]
        rw [List.nodup_cons]
        refine ⟨?_, ih2⟩
        intro hmem
        have := List.of_mem_filter (hrestsub m hmem)
        simp at this
      · intro gp hgp
        simp only [List.filterMap_cons, id_eq] at hgp
        rcases List.mem_cons.mp hgp with rfl | hrest
        · exact hm
        · exact List.mem_of_mem_filter (hrestsub gp hrest)
      · simp only [List.filterMap_cons, id_eq, List.length_cons]
        rw [ih4, havail, length_filter_ne _ _ hnda hm]
        have hK1 : 1 ≤ (availableGroups db).length :=
          List.length_pos.mpr (List.ne_nil_of_mem hm)
        omega

/-- C7. N allocator calls against a store with K available groups (K ≤ N)
return K pairwise-distinct groups — all drawn from the initially available
ones — and N − K nulls.  Concurrency is modelled by the spec's atomicity
rule: each `find_and_lock_any_available_gpu` call is a single atomic
select-and-update transaction, so any interleaving of N concurrent callers
equals some sequential order (`lockMany`); in particular two callers for
different cases never obtain the same group (the `Nodup` conjunct). -/
theorem find_and_lock_atomic_distinct_groups
    (db : DbState) (ids : List Nat)
    (hnd : (db.resources.map (·.pueue_group)).Nodup)
    (hK : (availableGroups db).length ≤ ids.length) :
    (((lockMany db ids).2.filterMap id).length = (availableGroups db).length)
    ∧ ((lockMany db ids).2.filterMap id).Nodup
    ∧ (∀ gp ∈ (lockMany db ids).2.filterMap id, gp ∈ availableGroups db)
    ∧ (((lockMany db ids).2.filter (·.isNone)).length
        = ids.length - (availableGroups db).length) := by
  obtain ⟨h1, h2, h3, h4⟩ := lockMany_spec ids db hnd
  have hmin : min ids.length (availableGroups db).length
      = (availableGroups db).length := Nat.min_eq_right hK
  have hsum := filterMap_id_add_none_length (lockMany db ids).2
  refine ⟨by omega, h2, h3, by omega⟩

/-- Witness for C7: three callers against two available groups obtain two
distinct groups and one null. -/
theorem find_and_lock_atomic_distinct_groups_witness :
    (((lockMany c7db [1, 2, 3]).2.filterMap id).length
      = (availableGroups c7db).length)
    ∧ ((lockMany c7db [1, 2, 3]).2.filterMap id).Nodup
    ∧ (∀ gp ∈ (lockMany c7db [1, 2, 3]).2.filterMap id,
        gp ∈ availableGroups c7db)
    ∧ (((lockMany c7db [1, 2, 3]).2.filter (·.isNone)).length
        = [1, 2, 3].length - (availableGroups c7db).length) :=
  find_and_lock_atomic_distinct_groups c7db [1, 2, 3] (by decide) (by decide)

end FMqiCom
